import Mathlib

/-!
Verification of `src/loader/fragment-loader.ts` (hls.js fragment loader).

The TypeScript source is shallowly embedded: JavaScript numbers are modelled by
`JSVal` (a rational together with the non-finite values `Infinity`, `-Infinity`
and `NaN`, with JavaScript's arithmetic on them); mutable instance state
(`this.loader`, `this.partLoadTimeout`, `frag.loader`, `frag.stats`) is passed
explicitly through a `MachineState`; the callback-driven part chain of
`loadFragmentParts` is rendered as a fuel-indexed recursive runner driven by an
outcome oracle for the injected transport, and the primitive side effects
(arming/clearing the watchdog timer, issuing transport requests) are recorded
in an explicit effect trace.
-/

namespace HlsJs

/-- A JavaScript number: a finite rational, `Infinity`, `-Infinity`, or `NaN`. -/
inductive JSVal where
  | num : ℚ → JSVal
  | inf : JSVal
  | negInf : JSVal
  | nan : JSVal
deriving DecidableEq, Repr

instance : OfNat JSVal n := ⟨JSVal.num n⟩

/-- JavaScript truthiness of a number: zero and `NaN` are falsy. -/
def jsTruthy : JSVal → Bool
  | .num q => q ≠ 0
  | .nan => false
  | _ => true

/-- Embeds `Number.isFinite`. -/
def jsFinite : JSVal → Bool
  | .num _ => true
  | _ => false

/-- JavaScript unary negation. -/
def jneg : JSVal → JSVal
  | .num q => .num (-q)
  | .inf => .negInf
  | .negInf => .inf
  | .nan => .nan

/-- JavaScript addition. -/
def jadd : JSVal → JSVal → JSVal
  | .nan, _ => .nan
  | _, .nan => .nan
  | .inf, .negInf => .nan
  | .negInf, .inf => .nan
  | .inf, _ => .inf
  | _, .inf => .inf
  | .negInf, _ => .negInf
  | _, .negInf => .negInf
  | .num a, .num b => .num (a + b)

/-- JavaScript subtraction, `a - b = a + (-b)`. -/
def jsub (a b : JSVal) : JSVal := jadd a (jneg b)

/-- JavaScript multiplication (`0 * Infinity = NaN`). -/
def jmul : JSVal → JSVal → JSVal
  | .nan, _ => .nan
  | _, .nan => .nan
  | .num a, .num b => .num (a * b)
  | .num a, .inf => if 0 < a then .inf else if a < 0 then .negInf else .nan
  | .num a, .negInf => if 0 < a then .negInf else if a < 0 then .inf else .nan
  | .inf, .num b => if 0 < b then .inf else if b < 0 then .negInf else .nan
  | .negInf, .num b => if 0 < b then .negInf else if b < 0 then .inf else .nan
  | .inf, .inf => .inf
  | .inf, .negInf => .negInf
  | .negInf, .inf => .negInf
  | .negInf, .negInf => .inf

/-- JavaScript division: division of a nonzero finite number by zero yields a
signed infinity, `0/0` and `±Infinity/±Infinity` yield `NaN`, and a finite
number divided by an infinity yields `0`. -/
def jdiv : JSVal → JSVal → JSVal
  | .nan, _ => .nan
  | _, .nan => .nan
  | .num a, .num b =>
      if b = 0 then (if 0 < a then .inf else if a < 0 then .negInf else .nan)
      else .num (a / b)
  | .num _, .inf => .num 0
  | .num _, .negInf => .num 0
  | .inf, .num b => if b < 0 then .negInf else .inf
  | .negInf, .num b => if b < 0 then .inf else .negInf
  | .inf, _ => .nan
  | .negInf, _ => .nan

/-- Embeds `Math.round`: on a finite value, round half towards positive infinity
(`round x = ⌊x + 1/2⌋`); infinities and `NaN` are returned unchanged. -/
def jround : JSVal → JSVal
  | .num q => .num ((⌊q + 1/2⌋ : ℤ) : ℚ)
  | v => v

/-- JavaScript `<` comparison: any comparison with `NaN` is false. -/
def jlt : JSVal → JSVal → Bool
  | .nan, _ => false
  | _, .nan => false
  | .num a, .num b => a < b
  | .num _, .inf => true
  | .num _, .negInf => false
  | .inf, _ => false
  | .negInf, .negInf => false
  | .negInf, _ => true

/-- Embeds `Math.max` of two numbers: `NaN` if either argument is `NaN`. -/
def jmax (a b : JSVal) : JSVal :=
  match a, b with
  | .nan, _ => .nan
  | _, .nan => .nan
  | x, y => if jlt x y then y else x

/-- Modelled from the spec: the loading timing marks `start`/`first`/`end` of a
stats record (the stats type lives outside `src/`). -/
structure LoadingTimes where
  start : JSVal
  first : JSVal
  end_ : JSVal
deriving DecidableEq, Repr

/-- Modelled from the spec: a stats record with `loaded`/`total` byte counters,
an `aborted` flag, and the loading timing marks (the stats type lives outside
`src/`; only the fields this component reads and writes are modelled). -/
structure LoadStats where
  loaded : JSVal
  total : JSVal
  aborted : Bool
  loading : LoadingTimes
deriving DecidableEq, Repr

/-- A part of a fragment, as read by `fragment-loader.ts`: its `index` within
its fragment, a back-reference to its owning fragment (modelled by the
fragment's identity `fragId`), `start`/`duration`, the `independent` flag and
its stats record (holding the values the transport produced by completion). -/
structure Part where
  index : Nat
  fragId : Nat
  start : JSVal
  duration : JSVal
  independent : Bool
  stats : LoadStats
deriving DecidableEq, Repr

/-- A fragment, as read by `fragment-loader.ts`: identity, optional `url`,
`start` and `duration`. Its mutable `stats` and `loader` fields are carried in
`MachineState`. -/
structure Fragment where
  fragId : Nat
  url : Option String
  start : JSVal
  duration : JSVal
deriving DecidableEq, Repr

/-- Embedding of `FragmentLoader.updateStatsFromPart`, with the fragment's
mutable stats record passed and returned explicitly instead of mutated through
`frag.stats`. -/
def updateStatsFromPart (frag : Fragment) (fragStats : LoadStats) (part : Part) :
    LoadStats :=
  let partStats := part.stats
  let partTotal := partStats.total
  let loaded1 := jadd fragStats.loaded partStats.loaded
  let stats1 : LoadStats := { fragStats with loaded := loaded1 }
  let stats2 : LoadStats :=
    if jsTruthy partTotal then
      let estLoadedParts := jround (jdiv loaded1 partTotal)
      let estTotalParts := jround (jdiv frag.duration part.duration)
      let estRemainingParts := jsub estTotalParts estLoadedParts
      { stats1 with
        total := jadd (jadd loaded1 partStats.total)
          (jmul estRemainingParts (jround (jdiv loaded1 estLoadedParts))) }
    else stats1
  let fragLoading := stats2.loading
  let loading3 : LoadingTimes :=
    if jsTruthy fragLoading.start then
      { fragLoading with
        start := jadd fragLoading.start (jsub partStats.loading.start fragLoading.end_),
        first := jadd fragLoading.first (jsub partStats.loading.first fragLoading.end_) }
    else
      { fragLoading with start := partStats.loading.start, first := partStats.loading.first }
  { stats2 with loading := { loading3 with end_ := partStats.loading.end_ } }

/-- Modelled from the spec: the error categories of `../errors` (not under
`src/`). Only the network-error category is ever used by this component; the
full taxonomy has further categories, collapsed here into `otherError`. -/
inductive ErrorType where
  | networkError : ErrorType
  | otherError : ErrorType
deriving DecidableEq, Repr

/-- Modelled from the spec: the error details of `../errors` (not under
`src/`) that this component uses: load-error (`FRAG_LOAD_ERROR`), load-timeout
(`FRAG_LOAD_TIMEOUT`) and internal-aborted (`INTERNAL_ABORTED`), plus a
catch-all for the rest of the taxonomy. -/
inductive ErrorDetail where
  | fragLoadError : ErrorDetail
  | fragLoadTimeout : ErrorDetail
  | internalAborted : ErrorDetail
  | otherDetail : ErrorDetail
deriving DecidableEq, Repr

/-- The `response` diagnostics of `FragLoadFailResult`: error status code and
description. -/
structure LoaderResponse where
  code : Int
  text : String
deriving DecidableEq, Repr

/-- Embedding of `FragLoadFailResult`, the data carried by a `LoadError`
rejection. `networkDetails` is opaque transport diagnostics, modelled by an
optional identifier (`none` is JavaScript `null`). -/
structure FragLoadFailResult where
  type : ErrorType
  details : ErrorDetail
  fatal : Bool
  frag : Fragment
  part : Option Part
  response : Option LoaderResponse
  networkDetails : Option Nat
deriving DecidableEq, Repr

/-- A per-part load result (`FragLoadedData`): fragment, part, payload and
transport diagnostics. The binary payload is modelled by an opaque
identifier. -/
structure FragLoadedData where
  frag : Fragment
  part : Option Part
  payload : Nat
  networkDetails : Option Nat
deriving DecidableEq, Repr

/-- Embedding of `FragLoadedEndData`: the fragment, the (never-populated)
`partsLoaded` accumulator, and the per-part results dynamically keyed by each
part's `index` (a JavaScript object used as a map, modelled by an association
list). -/
structure FragLoadedEndData where
  frag : Fragment
  partsLoaded : List FragLoadedData
  byIndex : List (Nat × FragLoadedData)
deriving DecidableEq, Repr

/-- Assignment `obj[key] = v` on the association list modelling a JavaScript
object: replaces the binding of `key` if present, otherwise appends it. -/
def updateAssoc (l : List (Nat × FragLoadedData)) (key : Nat) (v : FragLoadedData) :
    List (Nat × FragLoadedData) :=
  match l with
  | [] => [(key, v)]
  | (k, w) :: rest => if k = key then (key, v) :: rest else (k, w) :: updateAssoc rest key v

/-- Lookup `obj[key]` on the association list modelling a JavaScript object. -/
def lookupAssoc (l : List (Nat × FragLoadedData)) (key : Nat) : Option FragLoadedData :=
  match l with
  | [] => none
  | (k, w) :: rest => if k = key then some w else lookupAssoc rest key

/-- Embedding of `LoaderConfiguration` as built by `load` (lines 42-48). -/
structure LoaderConfiguration where
  timeout : JSVal
  maxRetry : JSVal
  retryDelay : JSVal
  maxRetryDelay : JSVal
  highWaterMark : JSVal
deriving DecidableEq, Repr

/-- Embeds `MIN_CHUNK_SIZE = Math.pow(2, 17)`. -/
def MIN_CHUNK_SIZE : JSVal := .num (2 ^ 17)

/-- The part of `HlsConfig` this component reads. `hasFLoader` records whether
`config.fLoader` is set (which factory is used; both yield one transport). -/
structure HlsConfig where
  fragLoadingTimeOut : JSVal
  fragLoadingMaxRetryTimeout : JSVal
  hasFLoader : Bool
deriving DecidableEq, Repr

/-- The `LoaderConfiguration` built at the top of `load` (lines 42-48). -/
def buildLoaderConfig (config : HlsConfig) : LoaderConfiguration :=
  { timeout := config.fragLoadingTimeOut
    maxRetry := .num 0
    retryDelay := .num 0
    maxRetryDelay := config.fragLoadingMaxRetryTimeout
    highWaterMark := MIN_CHUNK_SIZE }

/-- The level-details collaborator as read by `load`: `levelDetails?.partList`
may be absent (`none` models a null/undefined part list; a present empty array
is truthy in JavaScript and so kept distinct). -/
structure LevelDetails where
  partList : Option (List Part)
deriving DecidableEq, Repr

/-- The mutable state of a `FragmentLoader` instance and of the fragment it is
loading: `this.loader` and `frag.loader` (transport instances named by
identity), whether `this.partLoadTimeout` holds an armed timer, and
`frag.stats`. -/
structure MachineState where
  thisLoader : Option Nat
  timerArmed : Bool
  fragLoader : Option Nat
  fragStats : LoadStats
deriving DecidableEq, Repr

/-- The primitive side effects the loader performs, recorded as a trace:
instantiating a transport, delegating `abort()` to a transport, arming the
watchdog (`self.setTimeout`), clearing it (`self.clearTimeout`), issuing the
transport request for the part at a list index, issuing the whole-fragment
transport request, and invoking the caller's progress callback for a part. -/
inductive Effect where
  | instantiate : Nat → Effect
  | abortTransport : Nat → Effect
  | setTimeout : JSVal → Effect
  | clearTimeout : Effect
  | request : Nat → Effect
  | fragRequest : Effect
  | progress : Nat → Effect
deriving DecidableEq, Repr

/-- Embedding of `FragmentLoader.resetLoader` (lines 262-268): clears
`frag.loader`; if the given transport is still the tracked one, clears the
watchdog timer and the tracked slot. -/
def resetLoader (loaderId : Nat) (st : MachineState) : MachineState × List Effect :=
  let st1 := { st with fragLoader := none }
  if st.thisLoader = some loaderId then
    ({ st1 with thisLoader := none, timerArmed := false }, [Effect.clearTimeout])
  else (st1, [])

/-- The outcome the injected transport delivers for one part request: which of
`onSuccess`/`onError`/`onAbort`/`onTimeout` fires, with its payload. -/
inductive PartOutcome where
  | success : Nat → Option Nat → PartOutcome
  | error : LoaderResponse → Option Nat → PartOutcome
  | abortOut : Option Nat → PartOutcome
  | timeoutOut : LoaderResponse → Option Nat → PartOutcome
deriving DecidableEq, Repr

/-- How a run of the part chain (or of the whole-fragment request) settles:
the promise resolves, rejects, or the run is stuck (an out-of-range part-list
access, unreachable under the caller's preconditions). -/
inductive ChainStatus where
  | resolved : FragLoadedEndData → ChainStatus
  | rejected : FragLoadFailResult → ChainStatus
  | stuck : ChainStatus
deriving DecidableEq, Repr

/-- Embedding of the recursive `loadPartIndex` closure of
`loadFragmentParts` (lines 151-179), with `loadPart` (lines 184-238) inlined
at its single call site. The transport's callback outcome for the part at
list index `i` is `outcomes i`; `fuel` bounds the recursion (any
`fuel ≥ partList.length - index` is enough, see `loadPartIndex_fuel_irrel`).
Returns the final state, the effect trace, and how the chain settled. -/
def loadPartIndex (partList : List Part) (frag : Fragment) (loaderId : Nat)
    (outcomes : Nat → PartOutcome) :
    Nat → Nat → List (Nat × FragLoadedData) → MachineState →
    MachineState × List Effect × ChainStatus
  | 0, _, _, st => (st, [], .stuck)
  | fuel + 1, index, acc, st =>
    match partList.get? index with
    | none => (st, [Effect.request index], .stuck)
    | some part =>
      match outcomes index with
      | .success payload nd =>
        -- loadPart onSuccess: updateStatsFromPart, build the result, onProgress, resolve
        let st1 : MachineState :=
          { st with fragStats := updateStatsFromPart frag st.fragStats part }
        let partLoadedData : FragLoadedData :=
          { frag := frag, part := some part, payload := payload, networkDetails := nd }
        -- then-handler: record the result under the part's index
        let acc1 := updateAssoc acc part.index partLoadedData
        if index ≥ partList.length - 1 then
          -- globally last entry of the part list: forced abort
          let (st2, eff) := resetLoader loaderId st1
          let st3 : MachineState :=
            { st2 with fragStats := { st2.fragStats with aborted := true } }
          (st3, Effect.request index :: Effect.progress part.index :: eff,
            .rejected
              { type := .networkError, details := .internalAborted, fatal := false
                frag := frag, part := some part, response := none, networkDetails := nd })
        else
          match partList.get? (index + 1) with
          | none => (st1, [Effect.request index, Effect.progress part.index], .stuck)
          | some nextPart =>
            if nextPart.fragId ≠ frag.fragId then
              -- fragment boundary: the chain is complete
              let (st2, eff) := resetLoader loaderId st1
              (st2, Effect.request index :: Effect.progress part.index :: eff,
                .resolved { frag := frag, partsLoaded := [], byIndex := acc1 })
            else
              let (st', tr, res) :=
                loadPartIndex partList frag loaderId outcomes fuel (index + 1) acc1 st1
              (st', Effect.request index :: Effect.progress part.index :: tr, res)
      | .error resp nd =>
        let (st1, eff) := resetLoader loaderId st
        (st1, Effect.request index :: eff,
          .rejected
            { type := .networkError, details := .fragLoadError, fatal := false
              frag := frag, part := some part, response := some resp, networkDetails := nd })
      | .abortOut nd =>
        -- onAbort: frag.stats.aborted = part.stats.aborted, then reset and reject
        let st1 : MachineState :=
          { st with fragStats := { st.fragStats with aborted := part.stats.aborted } }
        let (st2, eff) := resetLoader loaderId st1
        (st2, Effect.request index :: eff,
          .rejected
            { type := .networkError, details := .internalAborted, fatal := false
              frag := frag, part := some part, response := none, networkDetails := nd })
      | .timeoutOut _resp nd =>
        let (st1, eff) := resetLoader loaderId st
        (st1, Effect.request index :: eff,
          .rejected
            { type := .networkError, details := .fragLoadTimeout, fatal := false
              frag := frag, part := some part, response := none, networkDetails := nd })

/-- Embedding of `FragmentLoader.loadFragmentParts` (lines 130-182): arm the
watchdog once with the configured timeout, then run the chain from
`partIndex`. -/
def loadFragmentParts (partList : List Part) (partIndex : Nat) (frag : Fragment)
    (loaderConfig : LoaderConfiguration) (loaderId : Nat)
    (outcomes : Nat → PartOutcome) (st : MachineState) :
    MachineState × List Effect × ChainStatus :=
  let st1 : MachineState := { st with timerArmed := true }
  let (st2, tr, res) :=
    loadPartIndex partList frag loaderId outcomes (partList.length + 1) partIndex [] st1
  (st2, Effect.setTimeout loaderConfig.timeout :: tr, res)

/-- Embedding of the watchdog-fire callback of `loadFragmentParts`
(lines 133-143): on firing, reset the loader and reject with a load-timeout
envelope carrying the starting part; `innerLoader` is the transport's
`loader.loader` diagnostic. -/
def partLoadTimeoutFire (partList : List Part) (partIndex : Nat) (frag : Fragment)
    (loaderId : Nat) (innerLoader : Option Nat) (st : MachineState) :
    MachineState × List Effect × FragLoadFailResult :=
  let (st1, eff) := resetLoader loaderId st
  (st1, eff,
    { type := .networkError, details := .fragLoadTimeout, fatal := false
      frag := frag, part := partList.get? partIndex, response := none
      networkDetails := innerLoader })

/-- The outcome the injected transport delivers for the single whole-fragment
request. -/
inductive FragOutcome where
  | success : Option Nat → FragOutcome
  | error : LoaderResponse → Option Nat → FragOutcome
  | abortOut : Option Nat → FragOutcome
  | timeoutOut : LoaderResponse → Option Nat → FragOutcome
deriving DecidableEq, Repr

/-- Embedding of the whole-fragment protocol of `load` (lines 76-127): one
transport request whose callbacks settle the promise. The success resolution
carries only the fragment (`resolve({ frag })`). -/
def runWholeFragment (frag : Fragment) (loaderId : Nat) (outcome : FragOutcome)
    (st : MachineState) : MachineState × List Effect × ChainStatus :=
  match outcome with
  | .success _nd =>
    let (st1, eff) := resetLoader loaderId st
    (st1, Effect.fragRequest :: eff,
      .resolved { frag := frag, partsLoaded := [], byIndex := [] })
  | .error resp nd =>
    let (st1, eff) := resetLoader loaderId st
    (st1, Effect.fragRequest :: eff,
      .rejected
        { type := .networkError, details := .fragLoadError, fatal := false
          frag := frag, part := none, response := some resp, networkDetails := nd })
  | .abortOut nd =>
    let (st1, eff) := resetLoader loaderId st
    (st1, Effect.fragRequest :: eff,
      .rejected
        { type := .networkError, details := .internalAborted, fatal := false
          frag := frag, part := none, response := none, networkDetails := nd })
  | .timeoutOut _resp nd =>
    let (st1, eff) := resetLoader loaderId st
    (st1, Effect.fragRequest :: eff,
      .rejected
        { type := .networkError, details := .fragLoadTimeout, fatal := false
          frag := frag, part := none, response := none, networkDetails := nd })

/-- Whether `!frag.url` holds: absent or empty string. -/
def urlFalsy : Option String → Bool
  | none => true
  | some s => s.isEmpty

/-- Embeds `targetBufferTime || 0`: `null` and falsy numbers collapse to `0`. -/
def jsOrZero : Option JSVal → JSVal
  | none => .num 0
  | some v => if jsTruthy v then v else .num 0

/-- Embedding of `FragmentLoader.abort` (lines 24-30): delegate `abort()` to
the tracked transport if there is one (the state is unchanged; the transport
answers later through its `onAbort` callback). -/
def abortLoader (st : MachineState) : List Effect :=
  match st.thisLoader with
  | some oldId => [Effect.abortTransport oldId]
  | none => []

/-- Embedding of lines 39-40 of `load`: instantiate one new transport and
assign it to both `this.loader` and `frag.loader`. -/
def installLoader (newLoaderId : Nat) (st : MachineState) : MachineState :=
  { st with thisLoader := some newLoaderId, fragLoader := some newLoaderId }

/-- Which protocol `load` dispatches to after its entry steps. -/
inductive LoadDispatch where
  | chain : List Part → Nat → LoadDispatch
  | resolveNull : LoadDispatch
  | rejectNoUrl : FragLoadFailResult → LoadDispatch
  | wholeFragment : LoadDispatch
deriving DecidableEq, Repr

/-- The scanning loop of `findIndependentPart` (lines 273-281): `i` is the
current list index, `acc` the latest matching index found so far (`-1` for
none). -/
def findIndependentPartAux (fragId : Nat) (target : JSVal) :
    List Part → Nat → Int → Int
  | [], _, acc => acc
  | p :: rest, i, acc =>
    if jlt target p.start then acc
    else
      findIndependentPartAux fragId target rest (i + 1)
        (if p.independent && p.fragId == fragId then (i : Int) else acc)

/-- Embedding of `findIndependentPart` (lines 271-283). -/
def findIndependentPart (partList : List Part) (frag : Fragment)
    (targetBufferTime : JSVal) : Int :=
  findIndependentPartAux frag.fragId targetBufferTime partList 0 (-1)

/-- Embedding of the entry and dispatch of `FragmentLoader.load`
(lines 32-74): abort any in-flight transport, install one new transport
instance, then choose a protocol. `hasOnProgress` records whether a progress
callback was supplied, `newLoaderId` names the freshly constructed transport
instance. -/
def loadEntry (frag : Fragment) (levelDetails : Option LevelDetails)
    (targetBufferTime : Option JSVal) (hasOnProgress : Bool) (newLoaderId : Nat)
    (st : MachineState) : MachineState × List Effect × LoadDispatch :=
  let abortEffs := abortLoader st
  let st1 := installLoader newLoaderId st
  let effs := abortEffs ++ [Effect.instantiate newLoaderId]
  let target := jmax frag.start (jsOrZero targetBufferTime)
  let noPartDispatch : MachineState × List Effect × LoadDispatch :=
    if urlFalsy frag.url then
      (st1, effs,
        .rejectNoUrl
          { type := .networkError, details := .fragLoadError, fatal := false
            frag := frag, part := none, response := none, networkDetails := none })
    else (st1, effs, .wholeFragment)
  match levelDetails.bind (·.partList), hasOnProgress with
  | some pl, true =>
    let partIndex := findIndependentPart pl frag target
    if partIndex > -1 then (st1, effs, .chain pl partIndex.toNat)
    else if urlFalsy frag.url then
      let (st2, eff2) := resetLoader newLoaderId st1
      (st2, effs ++ eff2, .resolveNull)
    else noPartDispatch
  | _, _ => noPartDispatch

/-- How a full `load` call settles: resolution with `null` or an end-of-
fragment result, rejection with the error envelope, or a stuck run. -/
inductive LoadResult where
  | resolved : Option FragLoadedEndData → LoadResult
  | rejected : FragLoadFailResult → LoadResult
  | stuck : LoadResult
deriving DecidableEq, Repr

/-- Lifts the settlement of one protocol run to a `load` settlement. -/
def liftStatus : ChainStatus → LoadResult
  | .resolved d => .resolved (some d)
  | .rejected e => .rejected e
  | .stuck => .stuck

/-- A full `load` call: entry and dispatch followed by the selected protocol,
driven by the transport outcome oracles. -/
def load (config : HlsConfig) (frag : Fragment) (levelDetails : Option LevelDetails)
    (targetBufferTime : Option JSVal) (hasOnProgress : Bool) (newLoaderId : Nat)
    (outcomes : Nat → PartOutcome) (fragOutcome : FragOutcome) (st : MachineState) :
    MachineState × List Effect × LoadResult :=
  let (st1, effs, d) :=
    loadEntry frag levelDetails targetBufferTime hasOnProgress newLoaderId st
  match d with
  | .chain pl partIndex =>
    let (st2, tr, res) :=
      loadFragmentParts pl partIndex frag (buildLoaderConfig config) newLoaderId
        outcomes st1
    (st2, effs ++ tr, liftStatus res)
  | .resolveNull => (st1, effs, .resolved none)
  | .rejectNoUrl e => (st1, effs, .rejected e)
  | .wholeFragment =>
    let (st2, tr, res) := runWholeFragment frag newLoaderId fragOutcome st1
    (st2, effs ++ tr, liftStatus res)

/-- The number of parts `findIndependentPart` scans: the length of the longest
prefix of the list whose parts' start times do not strictly exceed the target
(a part whose start equals the target is still scanned). -/
def scanLen (partList : List Part) (target : JSVal) : Nat :=
  (partList.takeWhile (fun p => ! jlt target p.start)).length

/-- The list index `j` holds a part that is `independent` and owned by the
fragment named `fragId`. -/
def goodAt (partList : List Part) (fragId : Nat) (j : Nat) : Prop :=
  ∃ p, partList.get? j = some p ∧ p.independent = true ∧ p.fragId = fragId

/-- Written from the spec's description of independent-part selection, for
comparison with `findIndependentPart`: the greatest index (`none` for no
index) within the scanned prefix whose part is independent and owned by the
target fragment. -/
def specScan (fragId : Nat) (target : JSVal) : List Part → Option Nat
  | [] => none
  | p :: rest =>
    if jlt target p.start then none
    else
      match specScan fragId target rest with
      | some j => some (j + 1)
      | none => if p.independent && p.fragId == fragId then some 0 else none

/-- A `clearTimeout` occurs, at most once, only as the final effect of the
trace: the watchdog is never cleared (hence never reset) between part
requests. -/
def TailClear (tr : List Effect) : Prop :=
  ∀ n, tr.get? n = some Effect.clearTimeout → n + 1 = tr.length

/-- The uniform error-envelope contract: network-error category, non-fatal,
details one of load-error, load-timeout, internal-aborted. -/
def envOk (e : FragLoadFailResult) : Prop :=
  e.type = .networkError ∧ e.fatal = false ∧
    (e.details = .fragLoadError ∨ e.details = .fragLoadTimeout ∨
      e.details = .internalAborted)

section FindIndependentPart

/-- The scanning loop agrees with `specScan`, relative to the running offset
`i` and the accumulator `acc`. -/
theorem findIndependentPartAux_eq (fragId : Nat) (target : JSVal) :
    ∀ (l : List Part) (i : Nat) (acc : Int),
      findIndependentPartAux fragId target l i acc =
        match specScan fragId target l with
        | some j => ((i + j : Nat) : Int)
        | none => acc := by
  intro l
  induction l with
  | nil => intro i acc; rfl
  | cons p rest ih =>
    intro i acc
    simp only [findIndependentPartAux, specScan]
    cases hj : jlt target p.start with
    | true => simp
    | false =>
      simp only [Bool.false_eq_true, if_false]
      rw [ih]
      cases hs : specScan fragId target rest with
      | some j =>
        simp only []
        congr 1
        omega
      | none =>
        cases hc : p.independent && p.fragId == fragId with
        | true => simp
        | false => simp

/-- If `specScan` finds no index, no scanned index is good. -/
theorem specScan_none (fragId : Nat) (target : JSVal) :
    ∀ l : List Part, specScan fragId target l = none →
      ∀ j, j < scanLen l target → ¬ goodAt l fragId j := by
  intro l
  induction l with
  | nil => intro _ j hj; simp [scanLen] at hj
  | cons p rest ih =>
    intro h j hj
    simp only [specScan] at h
    cases hlt : jlt target p.start with
    | true =>
      simp only [scanLen, List.takeWhile_cons, hlt] at hj
      simp at hj
    | false =>
      rw [hlt] at h
      simp only [Bool.false_eq_true, if_false] at h
      cases hs : specScan fragId target rest with
      | some k => rw [hs] at h; simp at h
      | none =>
        rw [hs] at h
        simp only [scanLen, List.takeWhile_cons, hlt] at hj
        simp only [Bool.not_false, if_true, List.length_cons] at hj
        cases j with
        | zero =>
          rintro ⟨q, hq, hind, hfid⟩
          simp only [List.get?] at hq
          obtain rfl := Option.some.inj hq
          rw [show (p.independent && p.fragId == fragId) = true by
            simp [hind, hfid]] at h
          simp at h
        | succ j' =>
          rintro ⟨q, hq, hind, hfid⟩
          exact ih hs j' (by simp only [scanLen]; omega) ⟨q, hq, hind, hfid⟩

/-- If `specScan` finds an index, it is a good scanned index and the greatest
such. -/
theorem specScan_some (fragId : Nat) (target : JSVal) :
    ∀ l : List Part, ∀ r : Nat, specScan fragId target l = some r →
      r < scanLen l target ∧ goodAt l fragId r ∧
        ∀ k, r < k → k < scanLen l target → ¬ goodAt l fragId k := by
  intro l
  induction l with
  | nil => intro r h; simp [specScan] at h
  | cons p rest ih =>
    intro r h
    simp only [specScan] at h
    cases hlt : jlt target p.start with
    | true => rw [hlt] at h; simp at h
    | false =>
      rw [hlt] at h
      simp only [Bool.false_eq_true, if_false] at h
      have hscan : scanLen (p :: rest) target = scanLen rest target + 1 := by
        simp [scanLen, List.takeWhile_cons, hlt]
      cases hs : specScan fragId target rest with
      | some k =>
        rw [hs] at h
        simp only [Option.some.injEq] at h
        obtain ⟨h1, h2, h3⟩ := ih k hs
        subst h
        refine ⟨by omega, ?_, ?_⟩
        · obtain ⟨q, hq, hind, hfid⟩ := h2
          exact ⟨q, hq, hind, hfid⟩
        · intro m hm1 hm2
          cases m with
          | zero => omega
          | succ m' =>
            rintro ⟨q, hq, hind, hfid⟩
            exact h3 m' (by omega) (by omega) ⟨q, hq, hind, hfid⟩
      | none =>
        rw [hs] at h
        cases hc : p.independent && p.fragId == fragId with
        | false => rw [hc] at h; simp at h
        | true =>
          rw [hc] at h
          simp only [if_true, Option.some.injEq] at h
          subst h
          simp only [Bool.and_eq_true, beq_iff_eq] at hc
          refine ⟨by omega, ⟨p, rfl, hc.1, hc.2⟩, ?_⟩
          intro m hm1 hm2
          cases m with
          | zero => omega
          | succ m' =>
            rintro ⟨q, hq, hind, hfid⟩
            exact specScan_none fragId target rest hs m' (by omega) ⟨q, hq, hind, hfid⟩

/-- C3: `findIndependentPart` scans the list in ascending index order, stops
at the first part whose start strictly exceeds `targetBufferTime` (a part
whose start equals the target is still scanned — the boundary is inclusive,
`scanLen` being defined by the non-strict comparison), and returns the
greatest scanned index whose part is independent and owned by `frag`; it
returns `-1` when no scanned part satisfies both conditions. -/
theorem findIndependentPart_greatest (partList : List Part) (frag : Fragment)
    (targetBufferTime : JSVal) :
    (findIndependentPart partList frag targetBufferTime = -1 ∧
      ∀ j, j < scanLen partList targetBufferTime →
        ¬ goodAt partList frag.fragId j) ∨
    (∃ r : Nat, findIndependentPart partList frag targetBufferTime = (r : Int) ∧
      r < scanLen partList targetBufferTime ∧ goodAt partList frag.fragId r ∧
      ∀ k, r < k → k < scanLen partList targetBufferTime →
        ¬ goodAt partList frag.fragId k) := by
  have he := findIndependentPartAux_eq frag.fragId targetBufferTime partList 0 (-1)
  cases hs : specScan frag.fragId targetBufferTime partList with
  | none =>
    left
    rw [hs] at he
    exact ⟨he, specScan_none frag.fragId targetBufferTime partList hs⟩
  | some r =>
    right
    rw [hs] at he
    obtain ⟨h1, h2, h3⟩ := specScan_some frag.fragId targetBufferTime partList r hs
    exact ⟨r, by simpa using he, h1, h2, h3⟩

end FindIndependentPart

section StatsMerge

/-- Division by the JavaScript number `0` never produces a finite value. -/
theorem jdiv_zero_nonfinite (x : JSVal) : jsFinite (jdiv x (JSVal.num 0)) = false := by
  cases x <;> simp [jdiv, jsFinite] <;> split_ifs <;> rfl

/-- Rounding preserves non-finiteness. -/
theorem jround_nonfinite (x : JSVal) (h : jsFinite x = false) :
    jsFinite (jround x) = false := by
  cases x <;> simp_all [jround, jsFinite]

/-- Multiplying by a non-finite value never produces a finite value. -/
theorem jmul_nonfinite_right (x y : JSVal) (h : jsFinite y = false) :
    jsFinite (jmul x y) = false := by
  cases x <;> cases y <;> simp_all [jmul, jsFinite] <;> split_ifs <;> rfl

/-- Adding a non-finite value never produces a finite value. -/
theorem jadd_nonfinite_right (x y : JSVal) (h : jsFinite y = false) :
    jsFinite (jadd x y) = false := by
  cases x <;> cases y <;> simp_all [jadd, jsFinite]

/-- The merge increments `fragStats.loaded` by `partStats.loaded`
(line 244). -/
theorem updateStatsFromPart_loaded_eq (frag : Fragment) (fragStats : LoadStats)
    (part : Part) :
    (updateStatsFromPart frag fragStats part).loaded =
      jadd fragStats.loaded part.stats.loaded := by
  simp only [updateStatsFromPart]
  split_ifs <;> rfl

/-- When `partStats.total` is truthy, the merged `fragStats.total` follows the
extrapolation formula of lines 245-250, written out pointwise over the
post-increment `fragStats.loaded`. -/
theorem updateStatsFromPart_total_eq (frag : Fragment) (fragStats : LoadStats)
    (part : Part) (h : jsTruthy part.stats.total = true) :
    (updateStatsFromPart frag fragStats part).total =
      jadd (jadd (jadd fragStats.loaded part.stats.loaded) part.stats.total)
        (jmul
          (jsub (jround (jdiv frag.duration part.duration))
            (jround (jdiv (jadd fragStats.loaded part.stats.loaded)
              part.stats.total)))
          (jround (jdiv (jadd fragStats.loaded part.stats.loaded)
            (jround (jdiv (jadd fragStats.loaded part.stats.loaded)
              part.stats.total))))) := by
  simp only [updateStatsFromPart, h, if_true]

/-- C6 (amended): in `updateStatsFromPart`, when `partStats.total` is
non-zero, after `fragStats.loaded` is incremented by `partStats.loaded`,
`fragStats.total` is set to `fragStats.loaded + partStats.total +
(round(frag.duration / part.duration) − round(fragStats.loaded /
partStats.total)) * round(fragStats.loaded / round(fragStats.loaded /
partStats.total))`; in particular, for `partStats = {loaded: 1000, total:
4000}`, `frag.duration = 4`, `part.duration = 1` and `fragStats.loaded` equal
to `1000` after the merge, the computed `fragStats.total` is `Infinity` (the
inner `round(1000/4000)` is `0`, so the formula divides by zero), not
`5000`. -/
theorem updateStatsFromPart_formula :
    (∀ (frag : Fragment) (fragStats : LoadStats) (part : Part),
      jsTruthy part.stats.total = true →
      (updateStatsFromPart frag fragStats part).loaded =
          jadd fragStats.loaded part.stats.loaded ∧
        (updateStatsFromPart frag fragStats part).total =
          jadd (jadd (jadd fragStats.loaded part.stats.loaded) part.stats.total)
            (jmul
              (jsub (jround (jdiv frag.duration part.duration))
                (jround (jdiv (jadd fragStats.loaded part.stats.loaded)
                  part.stats.total)))
              (jround (jdiv (jadd fragStats.loaded part.stats.loaded)
                (jround (jdiv (jadd fragStats.loaded part.stats.loaded)
                  part.stats.total)))))) ∧
    (updateStatsFromPart ⟨0, some "frag.mp4", .num 0, .num 4⟩
        ⟨.num 0, .num 0, false, ⟨.num 0, .num 0, .num 0⟩⟩
        ⟨0, 0, .num 0, .num 1, true,
          ⟨.num 1000, .num 4000, false, ⟨.num 0, .num 0, .num 0⟩⟩⟩).total =
      JSVal.inf := by
  refine ⟨fun frag fragStats part h => ⟨updateStatsFromPart_loaded_eq frag fragStats part, updateStatsFromPart_total_eq frag fragStats part h⟩, ?_⟩
  norm_num [updateStatsFromPart, jadd, jdiv, jround, jmul, jsub, jneg, jsTruthy]

/-- C6 (counterexample): at `partStats = {loaded: 1000, total: 4000}`,
`frag.duration = 4`, `part.duration = 1`, starting `fragStats.loaded = 0`
(so `fragStats.loaded = 1000` after the merge), the computed
`fragStats.total` is `Infinity`, not `5000` as the claim states. -/
theorem updateStatsFromPart_example_not_5000 :
    (updateStatsFromPart ⟨0, some "frag.mp4", .num 0, .num 4⟩
        ⟨.num 0, .num 0, false, ⟨.num 0, .num 0, .num 0⟩⟩
        ⟨0, 0, .num 0, .num 1, true,
          ⟨.num 1000, .num 4000, false, ⟨.num 0, .num 0, .num 0⟩⟩⟩).total =
        JSVal.inf ∧
    ¬ (updateStatsFromPart ⟨0, some "frag.mp4", .num 0, .num 4⟩
        ⟨.num 0, .num 0, false, ⟨.num 0, .num 0, .num 0⟩⟩
        ⟨0, 0, .num 0, .num 1, true,
          ⟨.num 1000, .num 4000, false, ⟨.num 0, .num 0, .num 0⟩⟩⟩).total =
        JSVal.num 5000 := by
  have h : (updateStatsFromPart ⟨0, some "frag.mp4", .num 0, .num 4⟩
      ⟨.num 0, .num 0, false, ⟨.num 0, .num 0, .num 0⟩⟩
      ⟨0, 0, .num 0, .num 1, true,
        ⟨.num 1000, .num 4000, false, ⟨.num 0, .num 0, .num 0⟩⟩⟩).total =
      JSVal.inf := by
    norm_num [updateStatsFromPart, jadd, jdiv, jround, jmul, jsub, jneg, jsTruthy]
  exact ⟨h, by rw [h]; decide⟩

/-- C6 witness: the formula direction applied at the concrete example. -/
theorem updateStatsFromPart_formula_witness :
    jsTruthy (JSVal.num 4000) = true ∧
    (updateStatsFromPart ⟨1, some "w.mp4", .num 0, .num 2⟩
        ⟨.num 500, .num 0, false, ⟨.num 0, .num 0, .num 0⟩⟩
        ⟨3, 1, .num 0, .num 1, false,
          ⟨.num 1500, .num 4000, false, ⟨.num 0, .num 0, .num 0⟩⟩⟩).total =
      jadd (jadd (jadd (JSVal.num 500) (JSVal.num 1500)) (JSVal.num 4000))
        (jmul
          (jsub (jround (jdiv (JSVal.num 2) (JSVal.num 1)))
            (jround (jdiv (jadd (JSVal.num 500) (JSVal.num 1500)) (JSVal.num 4000))))
          (jround (jdiv (jadd (JSVal.num 500) (JSVal.num 1500))
            (jround (jdiv (jadd (JSVal.num 500) (JSVal.num 1500)) (JSVal.num 4000)))))) :=
  ⟨by decide,
    (updateStatsFromPart_formula.1 ⟨1, some "w.mp4", .num 0, .num 2⟩
      ⟨.num 500, .num 0, false, ⟨.num 0, .num 0, .num 0⟩⟩
      ⟨3, 1, .num 0, .num 1, false,
        ⟨.num 1500, .num 4000, false, ⟨.num 0, .num 0, .num 0⟩⟩⟩ (by decide)).2⟩

/-- C10: when `partStats.total` is non-zero but
`round(fragStats.loaded / partStats.total)` evaluates to `0`, the expression
`round(fragStats.loaded / estLoadedParts)` divides by zero and
`fragStats.total` is assigned a non-finite value; conversely, with finite
inputs, a non-zero part duration and `round(fragStats.loaded /
partStats.total) = k ≥ 1`, the extrapolated total is a finite number. -/
theorem updateStatsFromPart_divzero :
    (∀ (frag : Fragment) (fragStats : LoadStats) (part : Part),
      jsTruthy part.stats.total = true →
      jround (jdiv (jadd fragStats.loaded part.stats.loaded) part.stats.total) =
        JSVal.num 0 →
      jsFinite (updateStatsFromPart frag fragStats part).total = false) ∧
    (∀ (frag : Fragment) (fragStats : LoadStats) (part : Part) (a l t d e : ℚ)
        (k : ℤ),
      fragStats.loaded = .num a → part.stats.loaded = .num l →
      part.stats.total = .num t → t ≠ 0 →
      frag.duration = .num d → part.duration = .num e → e ≠ 0 →
      jround (jdiv (JSVal.num (a + l)) (JSVal.num t)) = JSVal.num (k : ℚ) →
      1 ≤ k →
      jsFinite (updateStatsFromPart frag fragStats part).total = true) := by
  constructor
  · intro frag fragStats part h1 h2
    rw [updateStatsFromPart_total_eq frag fragStats part h1, h2]
    exact jadd_nonfinite_right _ _ (jmul_nonfinite_right _ _
      (jround_nonfinite _ (jdiv_zero_nonfinite _)))
  · intro frag fragStats part a l t d e k ha hl ht ht0 hd he he0 hr hk
    have htr : jsTruthy part.stats.total = true := by
      rw [ht]; simp [jsTruthy, ht0]
    rw [updateStatsFromPart_total_eq frag fragStats part htr, ha, hl, hd, he, ht]
    have hL : jadd (JSVal.num a) (JSVal.num l) = JSVal.num (a + l) := rfl
    rw [hL, hr]
    have hk0 : (k : ℚ) ≠ 0 := by
      exact_mod_cast (show k ≠ 0 by omega)
    have h1 : jdiv (JSVal.num d) (JSVal.num e) = JSVal.num (d / e) := by
      simp [jdiv, he0]
    have h2 : jdiv (JSVal.num (a + l)) (JSVal.num (k : ℚ)) =
        JSVal.num ((a + l) / (k : ℚ)) := by
      simp [jdiv, hk0]
    rw [h1, h2]
    rfl

/-- C10 witness: the division-by-zero direction at the concrete example of
the spec's stats-merge test. -/
theorem updateStatsFromPart_divzero_witness :
    (jsTruthy (JSVal.num 4000) = true ∧
      jround (jdiv (jadd (JSVal.num 0) (JSVal.num 1000)) (JSVal.num 4000)) =
        JSVal.num 0) ∧
    jsFinite (updateStatsFromPart ⟨0, some "frag.mp4", .num 0, .num 4⟩
        ⟨.num 0, .num 0, false, ⟨.num 0, .num 0, .num 0⟩⟩
        ⟨0, 0, .num 0, .num 1, true,
          ⟨.num 1000, .num 4000, false, ⟨.num 0, .num 0, .num 0⟩⟩⟩).total =
      false :=
  ⟨⟨by decide, by norm_num [jadd, jdiv, jround]⟩,
    updateStatsFromPart_divzero.1 ⟨0, some "frag.mp4", .num 0, .num 4⟩
      ⟨.num 0, .num 0, false, ⟨.num 0, .num 0, .num 0⟩⟩
      ⟨0, 0, .num 0, .num 1, true,
        ⟨.num 1000, .num 4000, false, ⟨.num 0, .num 0, .num 0⟩⟩⟩
      (by decide) (by norm_num [jadd, jdiv, jround])⟩

end StatsMerge

section PartChain

/-- Looking up the key just assigned returns the assigned value. -/
theorem lookupAssoc_update_self (l : List (Nat × FragLoadedData)) (k : Nat)
    (v : FragLoadedData) : lookupAssoc (updateAssoc l k v) k = some v := by
  induction l with
  | nil => simp [updateAssoc, lookupAssoc]
  | cons hd tl ih =>
    obtain ⟨k', w⟩ := hd
    by_cases h : k' = k
    · subst h
      simp [updateAssoc, lookupAssoc]
    · simp [updateAssoc, lookupAssoc, h, ih]

/-- Assignment does not disturb other keys. -/
theorem lookupAssoc_update_other (l : List (Nat × FragLoadedData)) (k : Nat)
    (v : FragLoadedData) (k' : Nat) (h : k' ≠ k) :
    lookupAssoc (updateAssoc l k v) k' = lookupAssoc l k' := by
  induction l with
  | nil => simp [updateAssoc, lookupAssoc, Ne.symm h]
  | cons hd tl ih =>
    obtain ⟨k'', w⟩ := hd
    by_cases h2 : k'' = k
    · subst h2
      simp [updateAssoc, lookupAssoc, Ne.symm h]
    · by_cases h3 : k'' = k'
      · subst h3
        simp [updateAssoc, lookupAssoc, h2]
      · simp [updateAssoc, lookupAssoc, h2, h3, ih]

/-- Applying `resetLoader` on the tracked transport clears the fragment's loader
reference, the tracked slot and the watchdog timer. -/
theorem resetLoader_eq_of (st : MachineState) (lid : Nat)
    (h : st.thisLoader = some lid) :
    resetLoader lid st =
      ({ thisLoader := none, timerArmed := false, fragLoader := none,
         fragStats := st.fragStats }, [Effect.clearTimeout]) := by
  simp [resetLoader, h]

/-- If every part from the current index through `i` loads successfully and
parts strictly after the current one through `i` stay on the loading
fragment, while the entry at `i + 1` belongs to a different fragment, the
chain resolves: the transport is released and the accumulated results map
each loaded part's `index` to its per-part result. -/
theorem chain_resolves
    (partList : List Part) (frag : Fragment) (loaderId : Nat)
    (outcomes : Nat → PartOutcome) (payloads : Nat → Nat) (nds : Nat → Option Nat)
    (i : Nat) (pnext : Part)
    (hnext : partList.get? (i + 1) = some pnext)
    (hdiff : pnext.fragId ≠ frag.fragId) :
    ∀ (fuel index : Nat) (acc : List (Nat × FragLoadedData)) (st : MachineState),
      index ≤ i →
      partList.length - index ≤ fuel →
      st.thisLoader = some loaderId →
      (∀ j, j ≤ i → index < j → ∀ p, partList.get? j = some p →
        p.fragId = frag.fragId) →
      (∀ j, j ≤ i → index ≤ j → outcomes j = .success (payloads j) (nds j)) →
      ∃ (trF : List Effect) (accF : List (Nat × FragLoadedData)) (stsF : LoadStats),
        loadPartIndex partList frag loaderId outcomes fuel index acc st =
          (⟨none, false, none, stsF⟩, trF,
            .resolved { frag := frag, partsLoaded := [], byIndex := accF }) ∧
        (∀ j, j ≤ i → index ≤ j → ∀ p, partList.get? j = some p →
          (∀ k, k ≤ i → index ≤ k → k ≠ j → ∀ q, partList.get? k = some q →
            q.index ≠ p.index) →
          lookupAssoc accF p.index =
            some { frag := frag, part := some p, payload := payloads j,
                   networkDetails := nds j }) ∧
        (∀ key, (∀ j, j ≤ i → index ≤ j → ∀ p, partList.get? j = some p →
            p.index ≠ key) →
          lookupAssoc accF key = lookupAssoc acc key) := by
  have hlen : i + 1 < partList.length := by
    obtain ⟨hlt, -⟩ := List.get?_eq_some.mp hnext
    exact hlt
  intro fuel
  induction fuel with
  | zero =>
    intro index acc st h1 h2 h3 h4 h5
    omega
  | succ fuel ih =>
    intro index acc st h1 h2 h3 h4 h5
    have hidx : index < partList.length := by omega
    obtain ⟨part, hpart⟩ : ∃ p, partList.get? index = some p :=
      ⟨_, List.get?_eq_get hidx⟩
    have hout : outcomes index = .success (payloads index) (nds index) :=
      h5 index h1 le_rfl
    have hnotlast : ¬ index ≥ partList.length - 1 := by omega
    have hst1 : ({ st with
        fragStats := updateStatsFromPart frag st.fragStats part } :
          MachineState).thisLoader = some loaderId := h3
    rcases Nat.eq_or_lt_of_le h1 with heq | hlt
    · -- current part is the one at `i`: the next entry crosses the boundary
      subst heq
      simp only [loadPartIndex, hpart, hout, hnext]
      rw [if_neg hnotlast, if_pos hdiff,
        resetLoader_eq_of _ loaderId hst1]
      refine ⟨_, updateAssoc acc part.index
        { frag := frag, part := some part, payload := payloads index,
          networkDetails := nds index }, _, rfl, ?_, ?_⟩
      · intro j hj1 hj2 p hp _
        have : j = index := by omega
        subst this
        rw [hpart] at hp
        obtain rfl := Option.some.inj hp
        exact lookupAssoc_update_self _ _ _
      · intro key hkey
        exact lookupAssoc_update_other _ _ _ _
          (Ne.symm (hkey index h1 le_rfl part hpart))
    · -- the chain continues on the same fragment
      have hnp : ∃ q, partList.get? (index + 1) = some q :=
        ⟨_, List.get?_eq_get (by omega)⟩
      obtain ⟨nextPart, hnp⟩ := hnp
      have hfid : nextPart.fragId = frag.fragId :=
        h4 (index + 1) (by omega) (by omega) nextPart hnp
      obtain ⟨trF, accF, stsF, heqn, hlook, hpres⟩ :=
        ih (index + 1)
          (updateAssoc acc part.index
            { frag := frag, part := some part, payload := payloads index,
              networkDetails := nds index })
          { st with fragStats := updateStatsFromPart frag st.fragStats part }
          (by omega) (by omega) hst1
          (fun j hj1 hj2 p hp => h4 j hj1 (by omega) p hp)
          (fun j hj1 hj2 => h5 j hj1 (by omega))
      simp only [loadPartIndex, hpart, hout, hnp]
      rw [if_neg hnotlast, if_neg (by simpa using hfid), heqn]
      refine ⟨_, accF, stsF, rfl, ?_, ?_⟩
      · intro j hj1 hj2 p hp hdist
        rcases Nat.eq_or_lt_of_le hj2 with hje | hjl
        · subst hje
          rw [hpart] at hp
          obtain rfl := Option.some.inj hp
          rw [hpres part.index (fun j' hj1' hj2' q hq =>
            hdist j' hj1' (by omega) (by omega) q hq)]
          exact lookupAssoc_update_self _ _ _
        · exact hlook j hj1 (by omega) p hp
            (fun k hk1 hk2 hk3 q hq => hdist k hk1 (by omega) hk3 q hq)
      · intro key hkey
        rw [hpres key (fun j hj1 hj2 p hp => hkey j hj1 (by omega) p hp)]
        exact lookupAssoc_update_other _ _ _ _
          (Ne.symm (hkey index h1 le_rfl part hpart))

/-- If every part from the current index to the end of the list loads
successfully and all of them (after the current one) belong to the loading
fragment, the chain reaches the globally last entry and force-aborts: the
fragment's stats are marked aborted, the transport is released, and the run
rejects with internal-aborted carrying the last part. -/
theorem chain_exhausts
    (partList : List Part) (frag : Fragment) (loaderId : Nat)
    (outcomes : Nat → PartOutcome) (payloads : Nat → Nat) (nds : Nat → Option Nat) :
    ∀ (fuel index : Nat) (acc : List (Nat × FragLoadedData)) (st : MachineState),
      index < partList.length →
      partList.length - index ≤ fuel →
      st.thisLoader = some loaderId →
      (∀ j, index < j → j < partList.length → ∀ p, partList.get? j = some p →
        p.fragId = frag.fragId) →
      (∀ j, index ≤ j → j < partList.length →
        outcomes j = .success (payloads j) (nds j)) →
      ∃ (trF : List Effect) (stsF : LoadStats) (plast : Part),
        partList.get? (partList.length - 1) = some plast ∧
        loadPartIndex partList frag loaderId outcomes fuel index acc st =
          (⟨none, false, none, stsF⟩, trF,
            .rejected
              { type := .networkError, details := .internalAborted, fatal := false
                frag := frag, part := some plast, response := none
                networkDetails := nds (partList.length - 1) }) ∧
        stsF.aborted = true := by
  intro fuel
  induction fuel with
  | zero =>
    intro index acc st h1 h2 h3 h4 h5
    omega
  | succ fuel ih =>
    intro index acc st h1 h2 h3 h4 h5
    obtain ⟨part, hpart⟩ : ∃ p, partList.get? index = some p :=
      ⟨_, List.get?_eq_get h1⟩
    have hout : outcomes index = .success (payloads index) (nds index) :=
      h5 index le_rfl h1
    have hst1 : ({ st with
        fragStats := updateStatsFromPart frag st.fragStats part } :
          MachineState).thisLoader = some loaderId := h3
    by_cases hlast : index ≥ partList.length - 1
    · -- this was the globally last entry: forced abort
      have hieq : index = partList.length - 1 := by omega
      simp only [loadPartIndex, hpart, hout]
      rw [if_pos hlast, resetLoader_eq_of _ loaderId hst1, ← hieq]
      exact ⟨_, _, part, hpart, rfl, rfl⟩
    · -- the chain continues on the same fragment
      have hnp : ∃ q, partList.get? (index + 1) = some q :=
        ⟨_, List.get?_eq_get (by omega)⟩
      obtain ⟨nextPart, hnp⟩ := hnp
      have hfid : nextPart.fragId = frag.fragId :=
        h4 (index + 1) (by omega) (by omega) nextPart hnp
      obtain ⟨trF, stsF, plast, hpl, heqn, hab⟩ :=
        ih (index + 1)
          (updateAssoc acc part.index
            { frag := frag, part := some part, payload := payloads index,
              networkDetails := nds index })
          { st with fragStats := updateStatsFromPart frag st.fragStats part }
          (by omega) (by omega) hst1
          (fun j hj1 hj2 p hp => h4 j (by omega) hj2 p hp)
          (fun j hj1 hj2 => h5 j (by omega) hj2)
      simp only [loadPartIndex, hpart, hout, hnp]
      rw [if_neg hlast, if_neg (by simpa using hfid), heqn]
      exact ⟨_, stsF, plast, hpl, rfl, hab⟩

/-- C1: when the part at list index `i` completes successfully and the entry
at `i + 1` exists but belongs to a different fragment, the chain terminates
successfully: the transport is released (fragment loader reference, tracked
slot and watchdog all cleared) and the promise resolves with the accumulated
result referencing the fragment and holding, keyed by each loaded part's
`index`, the per-part result `{frag, part, payload, networkDetails}` for
every part loaded from the starting index through `i`. -/
theorem loadFragmentParts_boundary_resolves
    (partList : List Part) (partIndex i : Nat) (frag : Fragment)
    (loaderConfig : LoaderConfiguration) (loaderId : Nat)
    (outcomes : Nat → PartOutcome) (payloads : Nat → Nat) (nds : Nat → Option Nat)
    (st : MachineState) (pnext : Part)
    (h1 : partIndex ≤ i)
    (hnext : partList.get? (i + 1) = some pnext)
    (hdiff : pnext.fragId ≠ frag.fragId)
    (hst : st.thisLoader = some loaderId)
    (hfrag : ∀ j, j ≤ i → partIndex < j →
      ((partList.get? j).all fun p => p.fragId == frag.fragId) = true)
    (hsucc : ∀ j, j ≤ i → partIndex ≤ j →
      outcomes j = .success (payloads j) (nds j)) :
    ∃ (trF : List Effect) (accF : List (Nat × FragLoadedData)) (stsF : LoadStats),
      loadFragmentParts partList partIndex frag loaderConfig loaderId outcomes st =
        (⟨none, false, none, stsF⟩,
          Effect.setTimeout loaderConfig.timeout :: trF,
          .resolved { frag := frag, partsLoaded := [], byIndex := accF }) ∧
      (∀ j, j ≤ i → partIndex ≤ j → ∀ p, partList.get? j = some p →
        (∀ k, k ≤ i → partIndex ≤ k → k ≠ j → ∀ q, partList.get? k = some q →
          q.index ≠ p.index) →
        lookupAssoc accF p.index =
          some { frag := frag, part := some p, payload := payloads j,
                 networkDetails := nds j }) ∧
      (∀ key, (∀ j, j ≤ i → partIndex ≤ j → ∀ p, partList.get? j = some p →
          p.index ≠ key) →
        lookupAssoc accF key = none) := by
  have hfrag' : ∀ j, j ≤ i → partIndex < j → ∀ p, partList.get? j = some p →
      p.fragId = frag.fragId := by
    intro j hj1 hj2 p hp
    have h := hfrag j hj1 hj2
    rw [hp] at h
    simpa using h
  obtain ⟨trF, accF, stsF, heq, hlook, hpres⟩ :=
    chain_resolves partList frag loaderId outcomes payloads nds i pnext hnext hdiff
      (partList.length + 1) partIndex []
      { st with timerArmed := true }
      h1 (by omega) hst hfrag' hsucc
  refine ⟨trF, accF, stsF, ?_, hlook, ?_⟩
  · simp only [loadFragmentParts, heq]
  · intro key hkey
    rw [hpres key hkey]
    rfl

/-- C1 witness: a three-part list where the first two parts belong to the
loading fragment and the third belongs to another; loading from index 0 with
both parts succeeding resolves with results for both. -/
theorem loadFragmentParts_boundary_resolves_witness :
    ((0 : Nat) ≤ 1 ∧
      [(⟨0, 0, .num 0, .num 1, true, ⟨.num 0, .num 0, false, ⟨.num 0, .num 0, .num 0⟩⟩⟩ : Part),
        ⟨1, 0, .num 0, .num 1, false, ⟨.num 0, .num 0, false, ⟨.num 0, .num 0, .num 0⟩⟩⟩,
        ⟨0, 1, .num 0, .num 1, true, ⟨.num 0, .num 0, false, ⟨.num 0, .num 0, .num 0⟩⟩⟩].get? 2 =
        some ⟨0, 1, .num 0, .num 1, true, ⟨.num 0, .num 0, false, ⟨.num 0, .num 0, .num 0⟩⟩⟩ ∧
      (⟨0, 1, .num 0, .num 1, true,
        ⟨.num 0, .num 0, false, ⟨.num 0, .num 0, .num 0⟩⟩⟩ : Part).fragId ≠
        (⟨0, some "frag.mp4", .num 0, .num 2⟩ : Fragment).fragId ∧
      (⟨some 5, false, some 5,
        ⟨.num 0, .num 0, false, ⟨.num 0, .num 0, .num 0⟩⟩⟩ : MachineState).thisLoader =
        some 5) ∧
    (∃ (trF : List Effect) (accF : List (Nat × FragLoadedData)) (stsF : LoadStats),
      loadFragmentParts
          [⟨0, 0, .num 0, .num 1, true, ⟨.num 0, .num 0, false, ⟨.num 0, .num 0, .num 0⟩⟩⟩,
            ⟨1, 0, .num 0, .num 1, false, ⟨.num 0, .num 0, false, ⟨.num 0, .num 0, .num 0⟩⟩⟩,
            ⟨0, 1, .num 0, .num 1, true, ⟨.num 0, .num 0, false, ⟨.num 0, .num 0, .num 0⟩⟩⟩]
          0 ⟨0, some "frag.mp4", .num 0, .num 2⟩
          ⟨.num 5000, .num 0, .num 0, .num 0, .num 0⟩ 5
          (fun j => .success j none)
          ⟨some 5, false, some 5, ⟨.num 0, .num 0, false, ⟨.num 0, .num 0, .num 0⟩⟩⟩ =
        (⟨none, false, none, stsF⟩, Effect.setTimeout (JSVal.num 5000) :: trF,
          .resolved { frag := ⟨0, some "frag.mp4", .num 0, .num 2⟩, partsLoaded := [],
                      byIndex := accF }) ∧
      (∀ j, j ≤ 1 → (0 : Nat) ≤ j → ∀ p,
        [(⟨0, 0, .num 0, .num 1, true, ⟨.num 0, .num 0, false, ⟨.num 0, .num 0, .num 0⟩⟩⟩ : Part),
          ⟨1, 0, .num 0, .num 1, false, ⟨.num 0, .num 0, false, ⟨.num 0, .num 0, .num 0⟩⟩⟩,
          ⟨0, 1, .num 0, .num 1, true, ⟨.num 0, .num 0, false, ⟨.num 0, .num 0, .num 0⟩⟩⟩].get? j =
          some p →
        (∀ k, k ≤ 1 → (0 : Nat) ≤ k → k ≠ j → ∀ q,
          [(⟨0, 0, .num 0, .num 1, true, ⟨.num 0, .num 0, false, ⟨.num 0, .num 0, .num 0⟩⟩⟩ : Part),
            ⟨1, 0, .num 0, .num 1, false, ⟨.num 0, .num 0, false, ⟨.num 0, .num 0, .num 0⟩⟩⟩,
            ⟨0, 1, .num 0, .num 1, true, ⟨.num 0, .num 0, false, ⟨.num 0, .num 0, .num 0⟩⟩⟩].get? k =
            some q → q.index ≠ p.index) →
        lookupAssoc accF p.index =
          some { frag := ⟨0, some "frag.mp4", .num 0, .num 2⟩, part := some p,
                 payload := j, networkDetails := none }) ∧
      (∀ key, (∀ j, j ≤ 1 → (0 : Nat) ≤ j → ∀ p,
          [(⟨0, 0, .num 0, .num 1, true, ⟨.num 0, .num 0, false, ⟨.num 0, .num 0, .num 0⟩⟩⟩ : Part),
            ⟨1, 0, .num 0, .num 1, false, ⟨.num 0, .num 0, false, ⟨.num 0, .num 0, .num 0⟩⟩⟩,
            ⟨0, 1, .num 0, .num 1, true, ⟨.num 0, .num 0, false, ⟨.num 0, .num 0, .num 0⟩⟩⟩].get? j =
            some p → p.index ≠ key) →
        lookupAssoc accF key = none)) :=
  ⟨⟨by decide, by decide, by decide, by decide⟩,
    loadFragmentParts_boundary_resolves
      [⟨0, 0, .num 0, .num 1, true, ⟨.num 0, .num 0, false, ⟨.num 0, .num 0, .num 0⟩⟩⟩,
        ⟨1, 0, .num 0, .num 1, false, ⟨.num 0, .num 0, false, ⟨.num 0, .num 0, .num 0⟩⟩⟩,
        ⟨0, 1, .num 0, .num 1, true, ⟨.num 0, .num 0, false, ⟨.num 0, .num 0, .num 0⟩⟩⟩]
      0 1 ⟨0, some "frag.mp4", .num 0, .num 2⟩
      ⟨.num 5000, .num 0, .num 0, .num 0, .num 0⟩ 5
      (fun j => .success j none) (fun j => j) (fun _ => none)
      ⟨some 5, false, some 5, ⟨.num 0, .num 0, false, ⟨.num 0, .num 0, .num 0⟩⟩⟩
      ⟨0, 1, .num 0, .num 1, true, ⟨.num 0, .num 0, false, ⟨.num 0, .num 0, .num 0⟩⟩⟩
      (by decide) (by decide) (by decide) (by decide) (by decide) (by decide)⟩

/-- C2: when the chain reaches the globally last entry of the part list (its
index is `≥ partList.length - 1`) and that part succeeds, the load does not
resolve: the fragment's stats are marked aborted, the transport is released,
and the promise rejects with an internal-aborted envelope carrying the
fragment and the just-loaded part. -/
theorem loadFragmentParts_exhaustion_rejects
    (partList : List Part) (partIndex : Nat) (frag : Fragment)
    (loaderConfig : LoaderConfiguration) (loaderId : Nat)
    (outcomes : Nat → PartOutcome) (payloads : Nat → Nat) (nds : Nat → Option Nat)
    (st : MachineState)
    (h1 : partIndex < partList.length)
    (hst : st.thisLoader = some loaderId)
    (hfrag : ∀ j, j < partList.length → partIndex < j →
      ((partList.get? j).all fun p => p.fragId == frag.fragId) = true)
    (hsucc : ∀ j, j < partList.length → partIndex ≤ j →
      outcomes j = .success (payloads j) (nds j)) :
    ∃ (trF : List Effect) (stsF : LoadStats) (plast : Part),
      partList.get? (partList.length - 1) = some plast ∧
      loadFragmentParts partList partIndex frag loaderConfig loaderId outcomes st =
        (⟨none, false, none, stsF⟩,
          Effect.setTimeout loaderConfig.timeout :: trF,
          .rejected
            { type := .networkError, details := .internalAborted, fatal := false
              frag := frag, part := some plast, response := none
              networkDetails := nds (partList.length - 1) }) ∧
      stsF.aborted = true := by
  have hfrag' : ∀ j, partIndex < j → j < partList.length →
      ∀ p, partList.get? j = some p → p.fragId = frag.fragId := by
    intro j hj1 hj2 p hp
    have h := hfrag j hj2 hj1
    rw [hp] at h
    simpa using h
  obtain ⟨trF, stsF, plast, hpl, heq, hab⟩ :=
    chain_exhausts partList frag loaderId outcomes payloads nds
      (partList.length + 1) partIndex [] { st with timerArmed := true }
      h1 (by omega) hst hfrag'
      (fun j hj1 hj2 => hsucc j hj2 hj1)
  refine ⟨trF, stsF, plast, hpl, ?_, hab⟩
  simp only [loadFragmentParts, heq]

/-- C2 witness: a two-part list entirely owned by the loading fragment; the
chain reaches the globally last entry and rejects with internal-aborted,
marking the fragment's stats aborted. -/
theorem loadFragmentParts_exhaustion_rejects_witness :
    ((0 : Nat) <
      [(⟨0, 0, .num 0, .num 1, true, ⟨.num 0, .num 0, false, ⟨.num 0, .num 0, .num 0⟩⟩⟩ : Part),
        ⟨1, 0, .num 0, .num 1, false,
          ⟨.num 0, .num 0, false, ⟨.num 0, .num 0, .num 0⟩⟩⟩].length ∧
      (⟨some 5, false, some 5,
        ⟨.num 0, .num 0, false, ⟨.num 0, .num 0, .num 0⟩⟩⟩ : MachineState).thisLoader =
        some 5) ∧
    (∃ (trF : List Effect) (stsF : LoadStats) (plast : Part),
      [(⟨0, 0, .num 0, .num 1, true, ⟨.num 0, .num 0, false, ⟨.num 0, .num 0, .num 0⟩⟩⟩ : Part),
        ⟨1, 0, .num 0, .num 1, false,
          ⟨.num 0, .num 0, false, ⟨.num 0, .num 0, .num 0⟩⟩⟩].get?
          ([(⟨0, 0, .num 0, .num 1, true, ⟨.num 0, .num 0, false, ⟨.num 0, .num 0, .num 0⟩⟩⟩ : Part),
            ⟨1, 0, .num 0, .num 1, false,
              ⟨.num 0, .num 0, false, ⟨.num 0, .num 0, .num 0⟩⟩⟩].length - 1) = some plast ∧
      loadFragmentParts
          [⟨0, 0, .num 0, .num 1, true, ⟨.num 0, .num 0, false, ⟨.num 0, .num 0, .num 0⟩⟩⟩,
            ⟨1, 0, .num 0, .num 1, false, ⟨.num 0, .num 0, false, ⟨.num 0, .num 0, .num 0⟩⟩⟩]
          0 ⟨0, some "frag.mp4", .num 0, .num 2⟩
          ⟨.num 5000, .num 0, .num 0, .num 0, .num 0⟩ 5
          (fun j => .success j none)
          ⟨some 5, false, some 5, ⟨.num 0, .num 0, false, ⟨.num 0, .num 0, .num 0⟩⟩⟩ =
        (⟨none, false, none, stsF⟩, Effect.setTimeout (JSVal.num 5000) :: trF,
          .rejected
            { type := .networkError, details := .internalAborted, fatal := false
              frag := ⟨0, some "frag.mp4", .num 0, .num 2⟩, part := some plast
              response := none
              networkDetails := none }) ∧
      stsF.aborted = true) :=
  ⟨⟨by decide, by decide⟩,
    loadFragmentParts_exhaustion_rejects
      [⟨0, 0, .num 0, .num 1, true, ⟨.num 0, .num 0, false, ⟨.num 0, .num 0, .num 0⟩⟩⟩,
        ⟨1, 0, .num 0, .num 1, false, ⟨.num 0, .num 0, false, ⟨.num 0, .num 0, .num 0⟩⟩⟩]
      0 ⟨0, some "frag.mp4", .num 0, .num 2⟩
      ⟨.num 5000, .num 0, .num 0, .num 0, .num 0⟩ 5
      (fun j => .success j none) (fun j => j) (fun _ => none)
      ⟨some 5, false, some 5, ⟨.num 0, .num 0, false, ⟨.num 0, .num 0, .num 0⟩⟩⟩
      (by decide) (by decide) (by decide) (by decide)⟩

theorem tailClear_nil : TailClear [] := by
  intro n hn
  simp [TailClear, List.get?] at hn

theorem tailClear_clear : TailClear [Effect.clearTimeout] := by
  intro n hn
  rcases n with _ | n
  · rfl
  · simp [List.get?] at hn

theorem tailClear_cons (e : Effect) (tr : List Effect)
    (he : e ≠ Effect.clearTimeout) (h : TailClear tr) :
    TailClear (e :: tr) := by
  intro n hn
  rcases n with _ | n
  · exact absurd (Option.some.inj hn) he
  · have := h n hn
    simp only [List.length_cons]
    omega

/-- Running `resetLoader` either clears everything with one `clearTimeout` effect or
only drops the fragment's loader reference with no effect. -/
theorem resetLoader_cases (lid : Nat) (st : MachineState) :
    resetLoader lid st =
      ({ st with fragLoader := none, thisLoader := none, timerArmed := false },
        [Effect.clearTimeout]) ∨
    resetLoader lid st = ({ st with fragLoader := none }, []) := by
  by_cases h : st.thisLoader = some lid
  · left; simp [resetLoader, h]
  · right; simp [resetLoader, h]

/-- The chain runner never arms a timer, and clears one only as its final,
terminal effect: the watchdog is never re-armed or reset between part
requests. -/
theorem loadPartIndex_trace (partList : List Part) (frag : Fragment)
    (loaderId : Nat) (outcomes : Nat → PartOutcome) :
    ∀ (fuel index : Nat) (acc : List (Nat × FragLoadedData)) (st : MachineState),
      (∀ t, Effect.setTimeout t ∉
        (loadPartIndex partList frag loaderId outcomes fuel index acc st).2.1) ∧
      TailClear (loadPartIndex partList frag loaderId outcomes fuel index acc st).2.1 := by
  intro fuel
  induction fuel with
  | zero =>
    intro index acc st
    exact ⟨fun t h => by simp [loadPartIndex] at h, by
      intro n hn; simp [loadPartIndex, List.get?] at hn⟩
  | succ fuel ih =>
    intro index acc st
    simp only [loadPartIndex]
    cases hp : partList.get? index with
    | none =>
      dsimp only
      exact ⟨fun t h => by simp at h,
        tailClear_cons _ _ (by simp) tailClear_nil⟩
    | some part =>
      cases ho : outcomes index with
      | success payload nd =>
        dsimp only
        by_cases hlast : index ≥ partList.length - 1
        · rw [if_pos hlast]
          rcases resetLoader_cases loaderId
              { st with fragStats := updateStatsFromPart frag st.fragStats part }
            with h | h <;> rw [h] <;>
            exact ⟨fun t hmem => by simp at hmem,
              by intro n hn; rcases n with _ | _ | _ | _ | n <;>
                simp_all [List.get?]⟩
        · rw [if_neg hlast]
          cases hn2 : partList.get? (index + 1) with
          | none =>
            dsimp only
            exact ⟨fun t h => by simp at h,
              by intro n hn; rcases n with _ | _ | _ | n <;>
                simp_all [List.get?]⟩
          | some nextPart =>
            dsimp only
            by_cases hb : nextPart.fragId ≠ frag.fragId
            · rw [if_pos hb]
              rcases resetLoader_cases loaderId
                  { st with fragStats := updateStatsFromPart frag st.fragStats part }
                with h | h <;> rw [h] <;>
                exact ⟨fun t hmem => by simp at hmem,
                  by intro n hn; rcases n with _ | _ | _ | _ | n <;>
                    simp_all [List.get?]⟩
            · rw [if_neg hb]
              rcases hrec : loadPartIndex partList frag loaderId outcomes fuel
                  (index + 1)
                  (updateAssoc acc part.index
                    { frag := frag, part := some part, payload := payload,
                      networkDetails := nd })
                  { st with fragStats := updateStatsFromPart frag st.fragStats part }
                with ⟨st', tr, res⟩
              obtain ⟨ihmem, ihtail⟩ := ih (index + 1)
                (updateAssoc acc part.index
                  { frag := frag, part := some part, payload := payload,
                    networkDetails := nd })
                { st with fragStats := updateStatsFromPart frag st.fragStats part }
              rw [hrec] at ihmem ihtail
              dsimp only at ihmem ihtail ⊢
              refine ⟨fun t hmem => ?_, tailClear_cons _ _ (by simp)
                (tailClear_cons _ _ (by simp) ihtail)⟩
              simp only [List.mem_cons] at hmem
              rcases hmem with h | h | h
              · exact absurd h (by simp)
              · exact absurd h (by simp)
              · exact ihmem t h
      | error resp nd =>
        dsimp only
        rcases resetLoader_cases loaderId st with h | h <;> rw [h] <;>
          exact ⟨fun t hmem => by simp at hmem,
            by intro n hn; rcases n with _ | _ | _ | n <;>
              simp_all [List.get?]⟩
      | abortOut nd =>
        dsimp only
        rcases resetLoader_cases loaderId
            { st with fragStats := { st.fragStats with aborted := part.stats.aborted } }
          with h | h <;> rw [h] <;>
          exact ⟨fun t hmem => by simp at hmem,
            by intro n hn; rcases n with _ | _ | _ | n <;>
              simp_all [List.get?]⟩
      | timeoutOut resp nd =>
        dsimp only
        rcases resetLoader_cases loaderId st with h | h <;> rw [h] <;>
          exact ⟨fun t hmem => by simp at hmem,
            by intro n hn; rcases n with _ | _ | _ | n <;>
              simp_all [List.get?]⟩

/-- Rewrites `loadFragmentParts` with explicit projections of the chain run. -/
theorem loadFragmentParts_comp (partList : List Part) (partIndex : Nat)
    (frag : Fragment) (loaderConfig : LoaderConfiguration) (loaderId : Nat)
    (outcomes : Nat → PartOutcome) (st : MachineState) :
    loadFragmentParts partList partIndex frag loaderConfig loaderId outcomes st =
      ((loadPartIndex partList frag loaderId outcomes (partList.length + 1)
          partIndex [] { st with timerArmed := true }).1,
        Effect.setTimeout loaderConfig.timeout ::
          (loadPartIndex partList frag loaderId outcomes (partList.length + 1)
            partIndex [] { st with timerArmed := true }).2.1,
        (loadPartIndex partList frag loaderId outcomes (partList.length + 1)
          partIndex [] { st with timerArmed := true }).2.2) := by
  simp only [loadFragmentParts]

/-- C4: the part chain arms the watchdog exactly once — as its first effect,
with the configured timeout duration — and never re-arms it; a `clearTimeout`
can occur only as the final, terminal effect, never between part requests.
When the armed watchdog fires before the chain has settled, the transport is
detached and the rejection envelope is a load-timeout carrying the fragment
and the starting part. -/
theorem loadFragmentParts_single_watchdog :
    (∀ (partList : List Part) (partIndex : Nat) (frag : Fragment)
        (loaderConfig : LoaderConfiguration) (loaderId : Nat)
        (outcomes : Nat → PartOutcome) (st : MachineState),
      ∃ tr, (loadFragmentParts partList partIndex frag loaderConfig loaderId
            outcomes st).2.1 =
          Effect.setTimeout loaderConfig.timeout :: tr ∧
        (∀ t, Effect.setTimeout t ∉ tr) ∧ TailClear tr) ∧
    (∀ (partList : List Part) (partIndex : Nat) (frag : Fragment)
        (loaderId : Nat) (innerLoader : Option Nat) (st : MachineState),
      st.thisLoader = some loaderId →
      (partLoadTimeoutFire partList partIndex frag loaderId innerLoader
          st).1.thisLoader = none ∧
      (partLoadTimeoutFire partList partIndex frag loaderId innerLoader
          st).1.fragLoader = none ∧
      (partLoadTimeoutFire partList partIndex frag loaderId innerLoader
          st).1.timerArmed = false ∧
      (partLoadTimeoutFire partList partIndex frag loaderId innerLoader
          st).2.2 =
        { type := .networkError, details := .fragLoadTimeout, fatal := false
          frag := frag, part := partList.get? partIndex, response := none
          networkDetails := innerLoader }) := by
  constructor
  · intro partList partIndex frag loaderConfig loaderId outcomes st
    obtain ⟨hmem, htail⟩ := loadPartIndex_trace partList frag loaderId outcomes
      (partList.length + 1) partIndex [] { st with timerArmed := true }
    exact ⟨_, by rw [loadFragmentParts_comp], hmem, htail⟩
  · intro partList partIndex frag loaderId innerLoader st h
    rw [show partLoadTimeoutFire partList partIndex frag loaderId innerLoader st =
        ({ thisLoader := none, timerArmed := false, fragLoader := none,
           fragStats := st.fragStats }, [Effect.clearTimeout],
          { type := .networkError, details := .fragLoadTimeout, fatal := false
            frag := frag, part := partList.get? partIndex, response := none
            networkDetails := innerLoader }) by
      simp only [partLoadTimeoutFire]
      rw [resetLoader_eq_of st loaderId h]]
    exact ⟨rfl, rfl, rfl, rfl⟩

/-- C4 witness: the watchdog-fire direction at a concrete armed state. -/
theorem loadFragmentParts_single_watchdog_witness :
    ((⟨some 3, true, some 3,
        ⟨.num 0, .num 0, false, ⟨.num 0, .num 0, .num 0⟩⟩⟩ : MachineState).thisLoader =
      some 3) ∧
    ((partLoadTimeoutFire [] 0 ⟨0, some "frag.mp4", .num 0, .num 4⟩ 3 none
        ⟨some 3, true, some 3,
          ⟨.num 0, .num 0, false, ⟨.num 0, .num 0, .num 0⟩⟩⟩).1.thisLoader = none ∧
      (partLoadTimeoutFire [] 0 ⟨0, some "frag.mp4", .num 0, .num 4⟩ 3 none
        ⟨some 3, true, some 3,
          ⟨.num 0, .num 0, false, ⟨.num 0, .num 0, .num 0⟩⟩⟩).1.fragLoader = none ∧
      (partLoadTimeoutFire [] 0 ⟨0, some "frag.mp4", .num 0, .num 4⟩ 3 none
        ⟨some 3, true, some 3,
          ⟨.num 0, .num 0, false, ⟨.num 0, .num 0, .num 0⟩⟩⟩).1.timerArmed = false ∧
      (partLoadTimeoutFire [] 0 ⟨0, some "frag.mp4", .num 0, .num 4⟩ 3 none
        ⟨some 3, true, some 3,
          ⟨.num 0, .num 0, false, ⟨.num 0, .num 0, .num 0⟩⟩⟩).2.2 =
        { type := .networkError, details := .fragLoadTimeout, fatal := false
          frag := ⟨0, some "frag.mp4", .num 0, .num 4⟩
          part := List.get? ([] : List Part) 0, response := none
          networkDetails := none }) :=
  ⟨by decide,
    loadFragmentParts_single_watchdog.2 [] 0 ⟨0, some "frag.mp4", .num 0, .num 4⟩ 3
      none ⟨some 3, true, some 3, ⟨.num 0, .num 0, false, ⟨.num 0, .num 0, .num 0⟩⟩⟩
      (by decide)⟩

end PartChain

section ErrorEnvelope

/-- Every rejection produced by the chain runner satisfies the uniform
envelope contract. -/
theorem loadPartIndex_rejected_envOk (partList : List Part) (frag : Fragment)
    (loaderId : Nat) (outcomes : Nat → PartOutcome) :
    ∀ (fuel index : Nat) (acc : List (Nat × FragLoadedData)) (st : MachineState)
      (e : FragLoadFailResult),
      (loadPartIndex partList frag loaderId outcomes fuel index acc
        st).2.2 = .rejected e → envOk e := by
  intro fuel
  induction fuel with
  | zero =>
    intro index acc st e he
    simp [loadPartIndex] at he
  | succ fuel ih =>
    intro index acc st e
    simp only [loadPartIndex]
    cases hp : partList.get? index with
    | none =>
      intro he
      simp at he
    | some part =>
      cases ho : outcomes index with
      | success payload nd =>
        dsimp only
        by_cases hlast : index ≥ partList.length - 1
        · rw [if_pos hlast]
          intro he
          dsimp only at he
          obtain rfl := ChainStatus.rejected.inj he
          simp [envOk]
        · rw [if_neg hlast]
          cases hn2 : partList.get? (index + 1) with
          | none =>
            intro he
            simp at he
          | some nextPart =>
            dsimp only
            by_cases hb : nextPart.fragId ≠ frag.fragId
            · rw [if_pos hb]
              intro he
              dsimp only at he
              simp at he
            · rw [if_neg hb]
              rcases hrec : loadPartIndex partList frag loaderId outcomes fuel
                  (index + 1)
                  (updateAssoc acc part.index
                    { frag := frag, part := some part, payload := payload,
                      networkDetails := nd })
                  { st with fragStats := updateStatsFromPart frag st.fragStats part }
                with ⟨st', tr, res⟩
              intro he
              dsimp only at he
              exact ih (index + 1) _ _ e (by rw [hrec]; exact he)
      | error resp nd =>
        dsimp only
        intro he
        obtain rfl := ChainStatus.rejected.inj he
        simp [envOk]
      | abortOut nd =>
        dsimp only
        intro he
        obtain rfl := ChainStatus.rejected.inj he
        simp [envOk]
      | timeoutOut resp nd =>
        dsimp only
        intro he
        obtain rfl := ChainStatus.rejected.inj he
        simp [envOk]

/-- The structural no-URL rejection of `load` satisfies the envelope
contract. -/
theorem loadEntry_rejectNoUrl_envOk (frag : Fragment)
    (levelDetails : Option LevelDetails) (targetBufferTime : Option JSVal)
    (hasOnProgress : Bool) (newLoaderId : Nat) (st : MachineState)
    (st1 : MachineState) (effs : List Effect) (e : FragLoadFailResult)
    (h : loadEntry frag levelDetails targetBufferTime hasOnProgress newLoaderId st =
      (st1, effs, .rejectNoUrl e)) : envOk e := by
  simp only [loadEntry] at h
  rcases hbind : levelDetails.bind (fun l => l.partList) with _ | pl <;>
    rw [hbind] at h <;>
    cases hasOnProgress <;>
    dsimp only at h
  all_goals
    try (rcases resetLoader_cases newLoaderId (installLoader newLoaderId st)
          with hre | hre <;> rw [hre] at h)
  all_goals split_ifs at h <;> simp only [Prod.mk.injEq] at h <;>
    first
      | (obtain rfl := LoadDispatch.rejectNoUrl.inj h.2.2; simp [envOk])
      | simp at h

/-- Every rejection produced by the whole-fragment protocol satisfies the
envelope contract. -/
theorem runWholeFragment_rejected_envOk (frag : Fragment) (loaderId : Nat)
    (outcome : FragOutcome) (st : MachineState) (e : FragLoadFailResult)
    (h : (runWholeFragment frag loaderId outcome st).2.2 = .rejected e) :
    envOk e := by
  rcases resetLoader_cases loaderId st with hre | hre <;>
    cases outcome <;>
    simp only [runWholeFragment, hre] at h <;>
    first
      | (obtain rfl := ChainStatus.rejected.inj h; simp [envOk])
      | simp at h

/-- C9: every rejection of `load` — across the part-chain and whole-fragment
protocols and the structural no-URL case — and the watchdog-fire rejection,
carries an envelope whose `type` is the network-error category, whose
`details` is one of load-error, load-timeout or internal-aborted, and whose
`fatal` field is false. (In this embedding every failure is a returned
rejection value; no path throws.) -/
theorem load_rejections_uniform :
    (∀ (config : HlsConfig) (frag : Fragment) (levelDetails : Option LevelDetails)
        (targetBufferTime : Option JSVal) (hasOnProgress : Bool) (newLoaderId : Nat)
        (outcomes : Nat → PartOutcome) (fragOutcome : FragOutcome)
        (st stF : MachineState) (trF : List Effect) (e : FragLoadFailResult),
      load config frag levelDetails targetBufferTime hasOnProgress newLoaderId
          outcomes fragOutcome st = (stF, trF, .rejected e) → envOk e) ∧
    (∀ (partList : List Part) (partIndex : Nat) (frag : Fragment) (loaderId : Nat)
        (innerLoader : Option Nat) (st : MachineState),
      envOk (partLoadTimeoutFire partList partIndex frag loaderId innerLoader
        st).2.2) := by
  constructor
  · intro config frag ld tbt hop nid outs fo st stF trF e h
    simp only [load] at h
    rcases hd : loadEntry frag ld tbt hop nid st with ⟨st1, effs, d⟩
    rw [hd] at h
    cases d with
    | chain pl pi =>
      dsimp only at h
      rcases hc : loadFragmentParts pl pi frag (buildLoaderConfig config) nid outs
        st1 with ⟨st2, tr2, res⟩
      rw [hc] at h
      dsimp only at h
      simp only [Prod.mk.injEq] at h
      obtain ⟨-, -, h3⟩ := h
      cases res with
      | resolved d2 => simp [liftStatus] at h3
      | stuck => simp [liftStatus] at h3
      | rejected e2 =>
        obtain rfl := LoadResult.rejected.inj h3
        have hcomp := loadFragmentParts_comp pl pi frag (buildLoaderConfig config)
          nid outs st1
        rw [hc] at hcomp
        simp only [Prod.mk.injEq] at hcomp
        exact loadPartIndex_rejected_envOk pl frag nid outs (pl.length + 1) pi []
          { st1 with timerArmed := true } e2 hcomp.2.2.symm
    | resolveNull =>
      dsimp only at h
      simp at h
    | rejectNoUrl e0 =>
      dsimp only at h
      simp only [Prod.mk.injEq] at h
      obtain ⟨-, -, h3⟩ := h
      obtain rfl := LoadResult.rejected.inj h3
      exact loadEntry_rejectNoUrl_envOk frag ld tbt hop nid st st1 effs e0 hd
    | wholeFragment =>
      dsimp only at h
      rcases hw : runWholeFragment frag nid fo st1 with ⟨st2, tr2, res⟩
      rw [hw] at h
      dsimp only at h
      simp only [Prod.mk.injEq] at h
      obtain ⟨-, -, h3⟩ := h
      cases res with
      | resolved d2 => simp [liftStatus] at h3
      | stuck => simp [liftStatus] at h3
      | rejected e2 =>
        obtain rfl := LoadResult.rejected.inj h3
        exact runWholeFragment_rejected_envOk frag nid fo st1 e2 (by rw [hw])
  · intro partList partIndex frag lid il st
    rcases resetLoader_cases lid st with hre | hre <;>
      simp [partLoadTimeoutFire, hre, envOk]

/-- C9 witness: the uniform-envelope theorem applied at a concrete no-URL
`load` call, whose rejection is a non-fatal network-error load-error. -/
theorem load_rejections_uniform_witness :
    (load ⟨.num 5000, .num 0, false⟩ ⟨0, none, .num 0, .num 1⟩ none none false 1
        (fun _ => .abortOut none) (.abortOut none)
        ⟨none, false, none, ⟨.num 0, .num 0, false, ⟨.num 0, .num 0, .num 0⟩⟩⟩ =
      (⟨some 1, false, some 1, ⟨.num 0, .num 0, false, ⟨.num 0, .num 0, .num 0⟩⟩⟩,
        [Effect.instantiate 1],
        .rejected
          { type := .networkError, details := .fragLoadError, fatal := false
            frag := ⟨0, none, .num 0, .num 1⟩, part := none, response := none
            networkDetails := none })) ∧
    envOk
      { type := .networkError, details := .fragLoadError, fatal := false
        frag := ⟨0, none, .num 0, .num 1⟩, part := none, response := none
        networkDetails := none } :=
  ⟨by decide,
    load_rejections_uniform.1 ⟨.num 5000, .num 0, false⟩ ⟨0, none, .num 0, .num 1⟩
      none none false 1 (fun _ => .abortOut none) (.abortOut none)
      ⟨none, false, none, ⟨.num 0, .num 0, false, ⟨.num 0, .num 0, .num 0⟩⟩⟩
      ⟨some 1, false, some 1, ⟨.num 0, .num 0, false, ⟨.num 0, .num 0, .num 0⟩⟩⟩
      [Effect.instantiate 1]
      { type := .networkError, details := .fragLoadError, fatal := false
        frag := ⟨0, none, .num 0, .num 1⟩, part := none, response := none
        networkDetails := none }
      (by decide)⟩

end ErrorEnvelope

section Orchestrator

/-- C5: while a previous load is pending, `load` first delegates abort to the
previous transport (its very first effect), then installs exactly one new
transport instance, assigned to both the tracked slot and the fragment's
loader field; the aborted call's promise settles through the abort-callback
path with an internal-aborted envelope (shown for both the whole-fragment and
the part-chain protocol). -/
theorem load_single_flight
    (frag : Fragment) (levelDetails : Option LevelDetails)
    (targetBufferTime : Option JSVal) (hasOnProgress : Bool)
    (oldId newLoaderId : Nat) (st : MachineState)
    (h : st.thisLoader = some oldId) :
    (loadEntry frag levelDetails targetBufferTime hasOnProgress newLoaderId
        st).2.1.head? = some (Effect.abortTransport oldId) ∧
    (installLoader newLoaderId st).thisLoader = some newLoaderId ∧
    (installLoader newLoaderId st).fragLoader = some newLoaderId ∧
    (∀ (fragB : Fragment) (nd : Option Nat) (stB : MachineState),
      (runWholeFragment fragB oldId (.abortOut nd) stB).2.2 =
        .rejected
          { type := .networkError, details := .internalAborted, fatal := false
            frag := fragB, part := none, response := none, networkDetails := nd }) ∧
    (∀ (partList : List Part) (fragB : Fragment) (outcomes : Nat → PartOutcome)
        (fuel index : Nat) (acc : List (Nat × FragLoadedData))
        (stB : MachineState) (part : Part) (nd : Option Nat),
      partList.get? index = some part → outcomes index = .abortOut nd →
      (loadPartIndex partList fragB oldId outcomes (fuel + 1) index acc
          stB).2.2 =
        .rejected
          { type := .networkError, details := .internalAborted, fatal := false
            frag := fragB, part := some part, response := none
            networkDetails := nd }) := by
  refine ⟨?_, rfl, rfl, ?_, ?_⟩
  · simp only [loadEntry, abortLoader, h]
    rcases levelDetails.bind (fun l => l.partList) with _ | pl <;>
      cases hasOnProgress <;>
      dsimp only
    all_goals
      try (rcases resetLoader_cases newLoaderId (installLoader newLoaderId st)
            with hre | hre <;> rw [hre])
    all_goals first
      | rfl
      | (split_ifs <;> rfl)
  · intro fragB nd stB
    rcases resetLoader_cases oldId stB with hre | hre <;>
      simp [runWholeFragment, hre]
  · intro partList fragB outcomes fuel index acc stB part nd hp ho
    simp only [loadPartIndex, hp, ho]

/-- C5 witness: the single-flight theorem at a concrete pending state. -/
theorem load_single_flight_witness :
    ((⟨some 9, true, some 9,
        ⟨.num 0, .num 0, false, ⟨.num 0, .num 0, .num 0⟩⟩⟩ : MachineState).thisLoader =
      some 9) ∧
    ((loadEntry ⟨0, some "frag.mp4", .num 0, .num 2⟩ none none false 10
        ⟨some 9, true, some 9,
          ⟨.num 0, .num 0, false, ⟨.num 0, .num 0, .num 0⟩⟩⟩).2.1.head? =
      some (Effect.abortTransport 9) ∧
    (installLoader 10
      ⟨some 9, true, some 9,
        ⟨.num 0, .num 0, false, ⟨.num 0, .num 0, .num 0⟩⟩⟩).thisLoader = some 10 ∧
    (installLoader 10
      ⟨some 9, true, some 9,
        ⟨.num 0, .num 0, false, ⟨.num 0, .num 0, .num 0⟩⟩⟩).fragLoader = some 10 ∧
    (∀ (fragB : Fragment) (nd : Option Nat) (stB : MachineState),
      (runWholeFragment fragB 9 (.abortOut nd) stB).2.2 =
        .rejected
          { type := .networkError, details := .internalAborted, fatal := false
            frag := fragB, part := none, response := none, networkDetails := nd }) ∧
    (∀ (partList : List Part) (fragB : Fragment) (outcomes : Nat → PartOutcome)
        (fuel index : Nat) (acc : List (Nat × FragLoadedData))
        (stB : MachineState) (part : Part) (nd : Option Nat),
      partList.get? index = some part → outcomes index = .abortOut nd →
      (loadPartIndex partList fragB 9 outcomes (fuel + 1) index acc stB).2.2 =
        .rejected
          { type := .networkError, details := .internalAborted, fatal := false
            frag := fragB, part := some part, response := none
            networkDetails := nd })) :=
  ⟨by decide,
    load_single_flight ⟨0, some "frag.mp4", .num 0, .num 2⟩ none none false 9 10
      ⟨some 9, true, some 9, ⟨.num 0, .num 0, false, ⟨.num 0, .num 0, .num 0⟩⟩⟩
      (by decide)⟩

/-- C7 (counterexample): at a fragment with no URL and no part list, `load`
does reject with load-error and issues no request, but a transport instance
IS instantiated — and left installed in the tracked slot and on the
fragment — contradicting the claim that no transport instance is
instantiated. -/
theorem load_noUrl_instantiates_transport :
    (load ⟨.num 5000, .num 0, false⟩ ⟨0, none, .num 0, .num 1⟩ none none false 1
        (fun _ => .abortOut none) (.abortOut none)
        ⟨none, false, none, ⟨.num 0, .num 0, false, ⟨.num 0, .num 0, .num 0⟩⟩⟩).2.2 =
      .rejected
        { type := .networkError, details := .fragLoadError, fatal := false
          frag := ⟨0, none, .num 0, .num 1⟩, part := none, response := none
          networkDetails := none } ∧
    Effect.instantiate 1 ∈
      (load ⟨.num 5000, .num 0, false⟩ ⟨0, none, .num 0, .num 1⟩ none none false 1
        (fun _ => .abortOut none) (.abortOut none)
        ⟨none, false, none, ⟨.num 0, .num 0, false, ⟨.num 0, .num 0, .num 0⟩⟩⟩).2.1 ∧
    ¬ (load ⟨.num 5000, .num 0, false⟩ ⟨0, none, .num 0, .num 1⟩ none none false 1
        (fun _ => .abortOut none) (.abortOut none)
        ⟨none, false, none,
          ⟨.num 0, .num 0, false, ⟨.num 0, .num 0, .num 0⟩⟩⟩).1.thisLoader = none := by
  refine ⟨by decide, by decide, by decide⟩

/-- C7 (amended): when `load` is called with a fragment that has no URL and no
usable part list applies (no part list or no progress callback), the promise
rejects immediately with a load-error envelope and no network request is
issued — but a transport instance is instantiated first (lines 37-40) and
remains assigned to the tracked slot and the fragment's loader field. -/
theorem load_noUrl_rejects
    (config : HlsConfig) (frag : Fragment) (levelDetails : Option LevelDetails)
    (targetBufferTime : Option JSVal) (hasOnProgress : Bool) (newLoaderId : Nat)
    (outcomes : Nat → PartOutcome) (fragOutcome : FragOutcome) (st : MachineState)
    (hurl : urlFalsy frag.url = true)
    (hnoparts : levelDetails.bind (fun l => l.partList) = none ∨
      hasOnProgress = false) :
    load config frag levelDetails targetBufferTime hasOnProgress newLoaderId
        outcomes fragOutcome st =
      (installLoader newLoaderId st,
        abortLoader st ++ [Effect.instantiate newLoaderId],
        .rejected
          { type := .networkError, details := .fragLoadError, fatal := false
            frag := frag, part := none, response := none, networkDetails := none }) ∧
    (∀ i, Effect.request i ∉ abortLoader st ++ [Effect.instantiate newLoaderId]) ∧
    Effect.fragRequest ∉ abortLoader st ++ [Effect.instantiate newLoaderId] ∧
    (installLoader newLoaderId st).thisLoader = some newLoaderId ∧
    (installLoader newLoaderId st).fragLoader = some newLoaderId := by
  have hmem : (∀ i, Effect.request i ∉
        abortLoader st ++ [Effect.instantiate newLoaderId]) ∧
      Effect.fragRequest ∉ abortLoader st ++ [Effect.instantiate newLoaderId] := by
    cases hsl : st.thisLoader <;>
      exact ⟨fun i => by simp [abortLoader, hsl], by simp [abortLoader, hsl]⟩
  refine ⟨?_, hmem.1, hmem.2, rfl, rfl⟩
  simp only [load, loadEntry]
  rcases hnoparts with hb | hf
  · rw [hb]
    dsimp only
    cases hasOnProgress <;> · rw [if_pos hurl]
  · subst hf
    rcases levelDetails.bind (fun l => l.partList) with _ | pl <;>
      dsimp only <;> rw [if_pos hurl]

/-- C7 witness: the amended theorem at a concrete no-URL, no-part-list
fragment. -/
theorem load_noUrl_rejects_witness :
    (urlFalsy (⟨0, none, .num 0, .num 1⟩ : Fragment).url = true ∧
      ((none : Option LevelDetails).bind (fun l => l.partList) = none ∨
        (false : Bool) = false)) ∧
    (load ⟨.num 5000, .num 0, false⟩ ⟨0, none, .num 0, .num 1⟩ none none false 1
        (fun _ => .abortOut none) (.abortOut none)
        ⟨none, false, none, ⟨.num 0, .num 0, false, ⟨.num 0, .num 0, .num 0⟩⟩⟩ =
      (installLoader 1
          ⟨none, false, none, ⟨.num 0, .num 0, false, ⟨.num 0, .num 0, .num 0⟩⟩⟩,
        abortLoader
            ⟨none, false, none, ⟨.num 0, .num 0, false, ⟨.num 0, .num 0, .num 0⟩⟩⟩ ++
          [Effect.instantiate 1],
        .rejected
          { type := .networkError, details := .fragLoadError, fatal := false
            frag := ⟨0, none, .num 0, .num 1⟩, part := none, response := none
            networkDetails := none }) ∧
      (∀ i, Effect.request i ∉
        abortLoader
            ⟨none, false, none, ⟨.num 0, .num 0, false, ⟨.num 0, .num 0, .num 0⟩⟩⟩ ++
          [Effect.instantiate 1]) ∧
      Effect.fragRequest ∉
        abortLoader
            ⟨none, false, none, ⟨.num 0, .num 0, false, ⟨.num 0, .num 0, .num 0⟩⟩⟩ ++
          [Effect.instantiate 1] ∧
      (installLoader 1
          ⟨none, false, none,
            ⟨.num 0, .num 0, false, ⟨.num 0, .num 0, .num 0⟩⟩⟩).thisLoader = some 1 ∧
      (installLoader 1
          ⟨none, false, none,
            ⟨.num 0, .num 0, false, ⟨.num 0, .num 0, .num 0⟩⟩⟩).fragLoader = some 1) :=
  ⟨⟨by decide, Or.inl (by decide)⟩,
    load_noUrl_rejects ⟨.num 5000, .num 0, false⟩ ⟨0, none, .num 0, .num 1⟩ none
      none false 1 (fun _ => .abortOut none) (.abortOut none)
      ⟨none, false, none, ⟨.num 0, .num 0, false, ⟨.num 0, .num 0, .num 0⟩⟩⟩
      (by decide) (Or.inl (by decide))⟩

/-- C8: with a part list and a progress callback, when `findIndependentPart`
returns `-1` and the fragment has no URL (a live hint fragment), `load`
resolves with `null` and releases the transport — the fragment's loader
reference, the tracked slot and the watchdog timer are all cleared — without
issuing any network request. -/
theorem load_hint_resolves_null
    (config : HlsConfig) (frag : Fragment) (levelDetails : Option LevelDetails)
    (targetBufferTime : Option JSVal) (newLoaderId : Nat)
    (outcomes : Nat → PartOutcome) (fragOutcome : FragOutcome) (st : MachineState)
    (pl : List Part)
    (hbind : levelDetails.bind (fun l => l.partList) = some pl)
    (hfip : findIndependentPart pl frag
      (jmax frag.start (jsOrZero targetBufferTime)) = -1)
    (hurl : urlFalsy frag.url = true) :
    load config frag levelDetails targetBufferTime true newLoaderId outcomes
        fragOutcome st =
      (⟨none, false, none, st.fragStats⟩,
        (abortLoader st ++ [Effect.instantiate newLoaderId]) ++
          [Effect.clearTimeout],
        .resolved none) ∧
    (∀ i, Effect.request i ∉
      (abortLoader st ++ [Effect.instantiate newLoaderId]) ++
        [Effect.clearTimeout]) ∧
    Effect.fragRequest ∉
      (abortLoader st ++ [Effect.instantiate newLoaderId]) ++
        [Effect.clearTimeout] := by
  have hmem : (∀ i, Effect.request i ∉
        (abortLoader st ++ [Effect.instantiate newLoaderId]) ++
          [Effect.clearTimeout]) ∧
      Effect.fragRequest ∉
        (abortLoader st ++ [Effect.instantiate newLoaderId]) ++
          [Effect.clearTimeout] := by
    cases hsl : st.thisLoader <;>
      exact ⟨fun i => by simp [abortLoader, hsl], by simp [abortLoader, hsl]⟩
  refine ⟨?_, hmem.1, hmem.2⟩
  simp only [load, loadEntry]
  rw [hbind]
  dsimp only
  rw [hfip, if_neg (by decide), if_pos hurl,
    resetLoader_eq_of (installLoader newLoaderId st) newLoaderId rfl]
  rfl

/-- C8 witness: a concrete hint fragment (no URL) with a part list containing
no independent part of this fragment resolves with `null` and a released
transport. -/
theorem load_hint_resolves_null_witness :
    ((none : Option JSVal) = none ∧
      (some (⟨some [⟨0, 7, .num 0, .num 1, false,
          ⟨.num 0, .num 0, false, ⟨.num 0, .num 0, .num 0⟩⟩⟩]⟩ : LevelDetails)).bind
          (fun l => l.partList) =
        some [⟨0, 7, .num 0, .num 1, false,
          ⟨.num 0, .num 0, false, ⟨.num 0, .num 0, .num 0⟩⟩⟩] ∧
      findIndependentPart
          [⟨0, 7, .num 0, .num 1, false,
            ⟨.num 0, .num 0, false, ⟨.num 0, .num 0, .num 0⟩⟩⟩]
          ⟨0, none, .num 0, .num 1⟩
          (jmax (JSVal.num 0) (jsOrZero none)) = -1 ∧
      urlFalsy (⟨0, none, .num 0, .num 1⟩ : Fragment).url = true) ∧
    (load ⟨.num 5000, .num 0, false⟩ ⟨0, none, .num 0, .num 1⟩
        (some ⟨some [⟨0, 7, .num 0, .num 1, false,
          ⟨.num 0, .num 0, false, ⟨.num 0, .num 0, .num 0⟩⟩⟩]⟩)
        none true 1 (fun _ => .abortOut none) (.abortOut none)
        ⟨none, false, none, ⟨.num 0, .num 0, false, ⟨.num 0, .num 0, .num 0⟩⟩⟩ =
      (⟨none, false, none, ⟨.num 0, .num 0, false, ⟨.num 0, .num 0, .num 0⟩⟩⟩,
        (abortLoader
            ⟨none, false, none, ⟨.num 0, .num 0, false, ⟨.num 0, .num 0, .num 0⟩⟩⟩ ++
          [Effect.instantiate 1]) ++ [Effect.clearTimeout],
        .resolved none) ∧
      (∀ i, Effect.request i ∉
        (abortLoader
            ⟨none, false, none, ⟨.num 0, .num 0, false, ⟨.num 0, .num 0, .num 0⟩⟩⟩ ++
          [Effect.instantiate 1]) ++ [Effect.clearTimeout]) ∧
      Effect.fragRequest ∉
        (abortLoader
            ⟨none, false, none, ⟨.num 0, .num 0, false, ⟨.num 0, .num 0, .num 0⟩⟩⟩ ++
          [Effect.instantiate 1]) ++ [Effect.clearTimeout]) :=
  ⟨⟨rfl, by decide, by decide, by decide⟩,
    load_hint_resolves_null ⟨.num 5000, .num 0, false⟩ ⟨0, none, .num 0, .num 1⟩
      (some ⟨some [⟨0, 7, .num 0, .num 1, false,
        ⟨.num 0, .num 0, false, ⟨.num 0, .num 0, .num 0⟩⟩⟩]⟩)
      none 1 (fun _ => .abortOut none) (.abortOut none)
      ⟨none, false, none, ⟨.num 0, .num 0, false, ⟨.num 0, .num 0, .num 0⟩⟩⟩
      [⟨0, 7, .num 0, .num 1, false, ⟨.num 0, .num 0, false, ⟨.num 0, .num 0, .num 0⟩⟩⟩]
      (by decide) (by decide) (by decide)⟩

end Orchestrator

end HlsJs
